import Mathlib

/-!
Verification of the tm-results-manager ingestion core: a shallow embedding of
the HY3 record decoder (`parsing/hy3_parser.py`), the archive extractor, the
storage layer (`storage/db.py`) and the parse-queue worker
(`pipeline/ingest_results.py`), together with theorems settling the frozen
claims about them.  Python strings are modelled as `List Char`, SQL NULLs as
`Option`, and the SQLite tables as Lean lists of row structures.
-/

namespace TM

/-- Python strings are modelled as lists of characters. -/
abbrev Str := List Char

/-- Whitespace set used by Python `str.strip` / `str.rstrip` (ASCII part). -/
def pyIsSpace (c : Char) : Bool :=
  c = ' ' || c = '\t' || c = '\n' || c = '\r' || c = '\x0b' || c = '\x0c'

/-- Python `s.rstrip()`: drop trailing whitespace. -/
def pyRstrip (s : Str) : Str :=
  (s.reverse.dropWhile pyIsSpace).reverse

/-- Python `s.lstrip()`: drop leading whitespace. -/
def pyLstrip (s : Str) : Str :=
  s.dropWhile pyIsSpace

/-- Python `s.strip()`: drop whitespace on both ends. -/
def pyStrip (s : Str) : Str :=
  pyRstrip (pyLstrip s)

/-- Python `line.rstrip-of-CR-LF` as used on each raw decoder line. -/
def rstripCRLF (s : Str) : Str :=
  (s.reverse.dropWhile (fun c => c = '\r' || c = '\n')).reverse

/-- Python `s.lower()` (character-wise). -/
def pyLower (s : Str) : Str :=
  s.map Char.toLower

/-- Python `s.upper()` (character-wise). -/
def pyUpper (s : Str) : Str :=
  s.map Char.toUpper

/-- Python truthiness of an optional string: `None` and the empty string are falsy. -/
def pyTruthyStr : Option Str → Bool
  | none => false
  | some s => !s.isEmpty

/-- Python truthiness of an optional integer: `None` and `0` are falsy. -/
def pyTruthyInt : Option Int → Bool
  | none => false
  | some n => n ≠ 0

/-- Python `a or b` on optional strings: returns `a` when truthy, else `b`. -/
def pyOrStr (a b : Option Str) : Option Str :=
  if pyTruthyStr a then a else b

/-- Python `a or b` on optional integers. -/
def pyOrInt (a b : Option Int) : Option Int :=
  if pyTruthyInt a then a else b

/-- SQL `COALESCE` of two nullable values. -/
def sqlCoalesce {α : Type} (a b : Option α) : Option α :=
  match a with
  | some v => some v
  | none => b

/-- Substring test: Python `needle in hay`. -/
def pyContains (hay needle : Str) : Bool :=
  hay.tails.any (fun t => needle.isPrefixOf t)

/-- Python slice `line[i:j]` for `0 ≤ i`; a negative `j` counts from the end. -/
def pySliceIJ (line : Str) (i : Nat) (j : Int) : Str :=
  let n : Int := line.length
  let jEff : Nat := if j < 0 then (n + j).toNat else j.toNat
  (line.drop i).take (jEff - i)

/-- The decoder field extractor `_slice` from `hy3_parser.py`: a missing start or
length yields the empty string, otherwise the 1-based fixed-width slice is taken
and right-stripped. -/
def _slice (line : Str) (start length : Option Int) : Str :=
  match start, length with
  | some st, some len =>
      let i : Nat := (st - 1).toNat
      pyRstrip (pySliceIJ line i (Int.ofNat i + len))
  | _, _ => []

/-- A calendar date. -/
structure PyDate where
  y : Nat
  m : Nat
  d : Nat
deriving DecidableEq

/-- Gregorian leap-year rule, as used by Python `datetime`. -/
def isLeap (y : Nat) : Bool :=
  y % 4 = 0 && (y % 100 ≠ 0 || y % 400 = 0)

/-- Days in a month, as validated by the `datetime` constructor. -/
def daysInMonth (y m : Nat) : Nat :=
  if m = 2 then (if isLeap y then 29 else 28)
  else if m = 4 || m = 6 || m = 9 || m = 11 then 30
  else 31

/-- Validity check performed by the `datetime` constructor after `strptime`
matching: year in 1..9999, month 1..12, day within the month. -/
def dateValid (dt : PyDate) : Bool :=
  1 ≤ dt.y && dt.y ≤ 9999 && 1 ≤ dt.m && dt.m ≤ 12 && 1 ≤ dt.d && dt.d ≤ daysInMonth dt.y dt.m

def isDigit (c : Char) : Bool := '0' ≤ c && c ≤ '9'

def digitVal (c : Char) : Nat := c.toNat - '0'.toNat

/-- Candidate matches for the `strptime` day directive, in the priority order of
its regular expression `31-30 or 29-10 or 09-01 or 9-1`. -/
def dayCandidates : Str → List (Nat × Str)
  | c1 :: c2 :: rest =>
      (if c1 = '3' && (c2 = '0' || c2 = '1') then [(30 + digitVal c2, rest)] else []) ++
      (if (c1 = '1' || c1 = '2') && isDigit c2 then [(digitVal c1 * 10 + digitVal c2, rest)] else []) ++
      (if c1 = '0' && '1' ≤ c2 && c2 ≤ '9' then [(digitVal c2, rest)] else []) ++
      (if '1' ≤ c1 && c1 ≤ '9' then [(digitVal c1, c2 :: rest)] else [])
  | c1 :: rest =>
      if '1' ≤ c1 && c1 ≤ '9' then [(digitVal c1, rest)] else []
  | [] => []

/-- Candidate matches for the `strptime` month directive `12-10 or 09-01 or 9-1`. -/
def monthCandidates : Str → List (Nat × Str)
  | c1 :: c2 :: rest =>
      (if c1 = '1' && ('0' ≤ c2 && c2 ≤ '2') then [(10 + digitVal c2, rest)] else []) ++
      (if c1 = '0' && '1' ≤ c2 && c2 ≤ '9' then [(digitVal c2, rest)] else []) ++
      (if '1' ≤ c1 && c1 ≤ '9' then [(digitVal c1, c2 :: rest)] else [])
  | c1 :: rest =>
      if '1' ≤ c1 && c1 ≤ '9' then [(digitVal c1, rest)] else []
  | [] => []

/-- Candidate match for the `strptime` year directive: exactly four digits. -/
def yearCandidates : Str → List (Nat × Str)
  | c1 :: c2 :: c3 :: c4 :: rest =>
      if isDigit c1 && isDigit c2 && isDigit c3 && isDigit c4 then
        [(((digitVal c1 * 10 + digitVal c2) * 10 + digitVal c3) * 10 + digitVal c4, rest)]
      else []
  | _ => []

/-- One `strptime` field directive. -/
inductive Directive | day | month | year
deriving DecidableEq

def directiveCandidates : Directive → Str → List (Nat × Str)
  | .day => dayCandidates
  | .month => monthCandidates
  | .year => yearCandidates

/-- Backtracking matcher for a directive sequence, mirroring the regular
expression engine behind `strptime`: the first assignment (in alternation
priority order) that consumes the whole input wins. -/
def matchDirectives : List Directive → Str → Option (List Nat)
  | [], s => if s.isEmpty then some [] else none
  | d :: ds, s =>
      (directiveCandidates d s).firstM (fun vr =>
        (matchDirectives ds vr.2).map (fun vs => vr.1 :: vs))

/-- `datetime.strptime` for the three numeric layouts used by the decoder:
regular-expression match of the whole token, then calendar validation. -/
def pyStrptime (ds : List Directive) (order : List Nat → Option PyDate) (s : Str) :
    Option PyDate := do
  let vals ← matchDirectives ds s
  let dt ← order vals
  if dateValid dt then some dt else none

def strptimeMDY (s : Str) : Option PyDate :=
  pyStrptime [.month, .day, .year]
    (fun | [m, d, y] => some ⟨y, m, d⟩ | _ => none) s

def strptimeDMY (s : Str) : Option PyDate :=
  pyStrptime [.day, .month, .year]
    (fun | [d, m, y] => some ⟨y, m, d⟩ | _ => none) s

def strptimeYMD (s : Str) : Option PyDate :=
  pyStrptime [.year, .month, .day]
    (fun | [y, m, d] => some ⟨y, m, d⟩ | _ => none) s

/-- Decimal digits of a natural number (no padding), as `strftime` renders a year. -/
def natToStr (n : Nat) : Str := (Nat.repr n).toList

/-- Zero-pad a number to two digits, as `strftime` renders day and month. -/
def pad2 (n : Nat) : Str :=
  if n < 10 then '0' :: natToStr n else natToStr n

/-- Zero-pad a number to four digits, as `date.isoformat` renders the year. -/
def pad4 (n : Nat) : Str :=
  let s := natToStr n
  List.replicate (4 - s.length) '0' ++ s

/-- `date.isoformat()`: YYYY-MM-DD with zero padding. -/
def dateIso (dt : PyDate) : Str :=
  pad4 dt.y ++ ['-'] ++ pad2 dt.m ++ ['-'] ++ pad2 dt.d

/-- The decoder helper `_parse_date_token`: strip the token, reject an empty
token or an unknown format name, otherwise `strptime` under the declared format
and return the ISO rendering; an unparseable token yields `none`. -/
def _parse_date_token (s : Str) (fmt : Str) : Option Str :=
  let t := pyStrip s
  if t.isEmpty then none
  else if fmt = "MMDDYYYY".toList then (strptimeMDY t).map dateIso
  else if fmt = "DDMMYYYY".toList then (strptimeDMY t).map dateIso
  else if fmt = "YYYYMMDD".toList then (strptimeYMD t).map dateIso
  else none

/-- `datetime.fromisoformat` restricted to the YYYY-MM-DD strings this program
produces; anything else fails. -/
def parseIsoDate (s : Str) : Option PyDate :=
  match s with
  | [a, b, c, d, '-', e, f, '-', g, h] =>
      if isDigit a && isDigit b && isDigit c && isDigit d && isDigit e && isDigit f
          && isDigit g && isDigit h then
        let dt : PyDate :=
          ⟨((digitVal a * 10 + digitVal b) * 10 + digitVal c) * 10 + digitVal d,
           digitVal e * 10 + digitVal f, digitVal g * 10 + digitVal h⟩
        if dateValid dt then some dt else none
      else none
  | _ => none

/-- The decoder helper `_reformat_date`: render an ISO date in one of the three
numeric layouts (the year unpadded, as glibc `strftime` renders `%Y`). -/
def _reformat_date (dateIso? : Option Str) (toFmt : Str) : Option Str :=
  match dateIso? with
  | none => none
  | some s =>
      if s.isEmpty then none
      else
        match parseIsoDate s with
        | none => none
        | some d =>
            if toFmt = "DDMMYYYY".toList then some (pad2 d.d ++ pad2 d.m ++ natToStr d.y)
            else if toFmt = "MMDDYYYY".toList then some (pad2 d.m ++ pad2 d.d ++ natToStr d.y)
            else if toFmt = "YYYYMMDD".toList then some (natToStr d.y ++ pad2 d.m ++ pad2 d.d)
            else none

/-- The storage helper `_iso_from_ddmmyyyy`: an 8-character DDMMYYYY string is
parsed with `strptime` and rendered as YYYY-MM-DD; anything else yields `none`. -/
def _iso_from_ddmmyyyy (s : Option Str) : Option Str :=
  match s with
  | none => none
  | some t =>
      if t.isEmpty || t.length ≠ 8 then none
      else (strptimeDMY t).map (fun d => natToStr d.y ++ ['-'] ++ pad2 d.m ++ ['-'] ++ pad2 d.d)

/-! ## Schema model (`models/hy3-results.json` as consumed by the decoder) -/

/-- A fixed-width field: 1-based start offset and length, either may be null. -/
structure FieldSpec where
  start : Option Int
  length : Option Int
deriving DecidableEq

/-- Dictionary update with Python semantics: replacing an existing key keeps
its position, a new key is appended. -/
def dictUpsert {α : Type} (l : List (Str × α)) (k : Str) (v : α) : List (Str × α) :=
  if l.any (fun p => p.1 = k) then l.map (fun p => if p.1 = k then (k, v) else p)
  else l ++ [(k, v)]

/-- Dictionary lookup `d.get(k)`. -/
def dictGet {α : Type} (l : List (Str × α)) (k : Str) : Option α :=
  (l.find? (fun p => p.1 = k)).map (fun p => p.2)

/-- The `meet_info` section of the schema model. -/
structure MeetInfoSpec where
  rowIdentifier : Str
  name : FieldSpec
  location : FieldSpec
  meetDateStart : FieldSpec
  meetDateEnd : FieldSpec
  dateFormat : Option Str
deriving DecidableEq

/-- The `meet_info_extended` section; a missing section has no row identifier. -/
structure MeetExtSpec where
  rowIdentifier : Option Str
  meetTypeCode : FieldSpec
  courseCode : FieldSpec
  meetType : List (Str × Str)
  meetTypeFallback : Option Str
  course : List (Str × Str)
deriving DecidableEq

/-- One entry of the team `overrides.meet_type` table. -/
structure OverrideCfg where
  teamCode : FieldSpec
  regionCode : FieldSpec
  teamType : Option Str
deriving DecidableEq

/-- The empty configuration dictionary used when no override entry applies. -/
def emptyOverrideCfg : OverrideCfg :=
  { teamCode := ⟨none, none⟩, regionCode := ⟨none, none⟩, teamType := none }

/-- The `team_info` section. -/
structure TeamInfoSpec where
  rowIdentifier : Str
  teamName : FieldSpec
  overridesMeetType : List (Str × OverrideCfg)
deriving DecidableEq

/-- The `team_info_extended` section. -/
structure TeamExtSpec where
  rowIdentifier : Option Str
  address1 : FieldSpec
  address2 : FieldSpec
  city : FieldSpec
  postalCode : FieldSpec
deriving DecidableEq

/-- The `swimmer_info` section. -/
structure SwimmerSpec where
  rowIdentifier : Str
  gender : FieldSpec
  lastName : FieldSpec
  firstName : FieldSpec
  mmNumber : FieldSpec
  birthDate : FieldSpec
  birthDateFormat : Option Str
deriving DecidableEq

/-- The whole schema model plus the region-code table. -/
structure Hy3Model where
  meetInfo : MeetInfoSpec
  meetInfoExtended : MeetExtSpec
  teamInfo : TeamInfoSpec
  teamInfoExtended : TeamExtSpec
  swimmerInfo : SwimmerSpec
  teamNameDetection : List (Str × Str)
  regionCodes : List (Str × List Str)
deriving DecidableEq

/-- `_build_region_reverse_map`: code -> region name, skipping empty codes,
keys normalised by strip and upper-case, later bindings overwriting earlier. -/
def _build_region_reverse_map (rc : List (Str × List Str)) : List (Str × Str) :=
  rc.foldl (fun acc p =>
    p.2.foldl (fun acc2 code =>
      if code.isEmpty then acc2
      else dictUpsert acc2 (pyUpper (pyStrip code)) p.1) acc) []

/-! ## Decoded entities -/

/-- The meet dictionary built by the decoder; a field is `none` while its key
has never been written (`meet_year` is also `none` when written as null). -/
structure MeetDict where
  meetName : Option Str
  locationText : Option Str
  meetDateStart : Option Str
  meetDateEnd : Option Str
  meetYear : Option Int
  meetTypeCode : Option Str
  meetType : Option Str
  courseCode : Option Str
  course : Option Str
deriving DecidableEq

def emptyMeetDict : MeetDict :=
  { meetName := none, locationText := none, meetDateStart := none, meetDateEnd := none,
    meetYear := none, meetTypeCode := none, meetType := none, courseCode := none,
    course := none }

/-- Python truthiness of the meet dictionary: falsy iff no key was ever set. -/
def meetDictTruthy (m : MeetDict) : Bool :=
  m ≠ emptyMeetDict

/-- A decoded team record. -/
structure ParsedTeam where
  teamCode : Str
  teamName : Str
  teamType : Str
  regionCode : Str
  region : Str
  address1 : Option Str
  address2 : Option Str
  city : Option Str
  postalCode : Option Str
deriving DecidableEq

/-- A decoded swimmer record, carrying a copy of its team context. -/
structure ParsedSwimmer where
  firstName : Str
  lastName : Str
  gender : Str
  birthDate : Option Str
  mmNumber : Str
  teamCode : Str
  teamName : Str
  teamType : Str
  regionCode : Str
  region : Str
deriving DecidableEq

/-- A decoder or extractor warning dictionary. -/
structure Warn where
  wtype : Str
  message : Str
  context : List Str
deriving DecidableEq

/-- The accumulator threaded through `parse_hy3_lines`. -/
structure PState where
  meet : MeetDict
  teams : List ParsedTeam
  swimmers : List ParsedSwimmer
  warnings : List Warn
  meetTypeCode : Str
deriving DecidableEq

def initPState : PState :=
  { meet := emptyMeetDict, teams := [], swimmers := [], warnings := [], meetTypeCode := [] }

/-- `_detect_team_type_from_name`: first substring rule that matches the
lower-cased name wins, else the `default` entry of the detection map. -/
def _detect_team_type_from_name (name : Str) (dm : List (Str × Str)) : Option Str :=
  let n := pyLower name
  match dm.find? (fun p => !p.1.isEmpty && pyContains n (pyLower p.1)) with
  | some p => some p.2
  | none => dictGet dm "default".toList

/-- `_apply_team_overrides`: pick the override entry for the current meet-type
code (falling back to the `fallback` entry, then to an empty entry) and extract
team code, region code and team type from it. -/
def _apply_team_overrides (line : Str) (meetTypeCode : Str) (teamSpec : TeamInfoSpec) :
    Str × Str × Str :=
  let cfg :=
    match dictGet teamSpec.overridesMeetType meetTypeCode with
    | some c => c
    | none => (dictGet teamSpec.overridesMeetType "fallback".toList).getD emptyOverrideCfg
  (_slice line cfg.teamCode.start cfg.teamCode.length,
   _slice line cfg.regionCode.start cfg.regionCode.length,
   cfg.teamType.getD "Other".toList)

/-- Replace the last element of a list, if any (Python `teams[-1]` mutation). -/
def modifyLastTeam (f : ParsedTeam → ParsedTeam) (l : List ParsedTeam) : List ParsedTeam :=
  match l.getLast? with
  | none => l
  | some t => l.dropLast ++ [f t]

/-- Helper digits-to-int conversion used for `int(date_start_iso[:4])`. -/
def digitsToNat (s : Str) : Nat :=
  s.foldl (fun a c => a * 10 + digitVal c) 0

/-- The body of the `parse_hy3_lines` loop: dispatch one raw line on its
two-character record code and update the accumulator. -/
def parse_hy3_line_step (M : Hy3Model) (s : PState) (raw : Str) : PState :=
  let line := rstripCRLF raw
  if line.isEmpty then s else
  let rc := line.take 2
  if rc = M.meetInfo.rowIdentifier then
    let name := _slice line M.meetInfo.name.start M.meetInfo.name.length
    let location := _slice line M.meetInfo.location.start M.meetInfo.location.length
    let srcFmt := M.meetInfo.dateFormat.getD "MMDDYYYY".toList
    let dateStartIso := _parse_date_token
      (_slice line M.meetInfo.meetDateStart.start M.meetInfo.meetDateStart.length) srcFmt
    let dateEndIso := _parse_date_token
      (_slice line M.meetInfo.meetDateEnd.start M.meetInfo.meetDateEnd.length) srcFmt
    let meetDateStart := _reformat_date dateStartIso "DDMMYYYY".toList
    let meetDateEnd := _reformat_date dateEndIso "DDMMYYYY".toList
    { s with meet := { s.meet with
        meetName := some (pyStrip name),
        locationText := some (pyStrip location),
        meetDateStart := some (meetDateStart.getD []),
        meetDateEnd := some (meetDateEnd.getD []),
        meetYear := dateStartIso.map (fun iso => Int.ofNat (digitsToNat (iso.take 4))) } }
  else if some rc = M.meetInfoExtended.rowIdentifier then
    let mtCode := _slice line M.meetInfoExtended.meetTypeCode.start
      M.meetInfoExtended.meetTypeCode.length
    let fallback := M.meetInfoExtended.meetTypeFallback.getD "Other".toList
    let meetType := (dictGet M.meetInfoExtended.meetType mtCode).getD fallback
    let courseCode := _slice line M.meetInfoExtended.courseCode.start
      M.meetInfoExtended.courseCode.length
    let course := (dictGet M.meetInfoExtended.course courseCode).getD []
    { s with
        meetTypeCode := mtCode,
        meet := { s.meet with
          meetTypeCode := some mtCode, meetType := some meetType,
          courseCode := some courseCode, course := some course } }
  else if rc = M.teamInfo.rowIdentifier then
    let teamName := pyStrip (_slice line M.teamInfo.teamName.start M.teamInfo.teamName.length)
    let ov := _apply_team_overrides line s.meetTypeCode M.teamInfo
    let nameType := _detect_team_type_from_name teamName M.teamNameDetection
    let school := s.meet.meetTypeCode = some "03".toList ∨ s.meet.meetTypeCode = some "04".toList
    let regionCode1 :=
      if (nameType = some "High School".toList ∨ nameType = some "College".toList) ∧ ¬school
      then [] else ov.2.1
    let regionCode2 := if school then [] else regionCode1
    let regionName :=
      (dictGet (_build_region_reverse_map M.regionCodes) (pyUpper (pyStrip regionCode2))).getD []
    let t : ParsedTeam :=
      { teamCode := ov.1, teamName := teamName,
        teamType := if pyTruthyStr nameType then nameType.getD [] else ov.2.2,
        regionCode := regionCode2, region := regionName,
        address1 := none, address2 := none, city := none, postalCode := none }
    { s with teams := s.teams ++ [t] }
  else if some rc = M.teamInfoExtended.rowIdentifier ∧ s.teams ≠ [] then
    { s with teams := modifyLastTeam (fun t =>
        { t with
          address1 := some (pyStrip (_slice line M.teamInfoExtended.address1.start
            M.teamInfoExtended.address1.length)),
          address2 := some (pyStrip (_slice line M.teamInfoExtended.address2.start
            M.teamInfoExtended.address2.length)),
          city := some (pyStrip (_slice line M.teamInfoExtended.city.start
            M.teamInfoExtended.city.length)),
          postalCode := some (pyStrip (_slice line M.teamInfoExtended.postalCode.start
            M.teamInfoExtended.postalCode.length)) }) s.teams }
  else if rc = M.swimmerInfo.rowIdentifier then
    match s.teams.getLast? with
    | none =>
        { s with warnings := s.warnings ++
            [⟨"SwimmerWithoutTeam".toList, "Encountered swimmer before any team".toList,
              [line.take 50]⟩] }
    | some last =>
        let gender := pyStrip (_slice line M.swimmerInfo.gender.start M.swimmerInfo.gender.length)
        let lastName := pyStrip (_slice line M.swimmerInfo.lastName.start
          M.swimmerInfo.lastName.length)
        let firstName := pyStrip (_slice line M.swimmerInfo.firstName.start
          M.swimmerInfo.firstName.length)
        let mmNumber := pyStrip (_slice line M.swimmerInfo.mmNumber.start
          M.swimmerInfo.mmNumber.length)
        let birthSrc := pyStrip (_slice line M.swimmerInfo.birthDate.start
          M.swimmerInfo.birthDate.length)
        let birthFmt := M.swimmerInfo.birthDateFormat.getD "MMDDYYYY".toList
        let birthIso := _parse_date_token birthSrc birthFmt
        let birthDD := if pyTruthyStr birthIso
          then _reformat_date birthIso "DDMMYYYY".toList else some []
        let sw : ParsedSwimmer :=
          { firstName := firstName, lastName := lastName, gender := gender,
            birthDate := birthDD, mmNumber := mmNumber,
            teamCode := last.teamCode, teamName := last.teamName,
            teamType := last.teamType, regionCode := last.regionCode,
            region := last.region }
        { s with swimmers := s.swimmers ++ [sw] }
  else s

/-- Fold the decoder over a line list from a given state. -/
def runParse (M : Hy3Model) (s : PState) (lines : List Str) : PState :=
  lines.foldl (parse_hy3_line_step M) s

/-- `parse_hy3_lines`: decode a full line list and return
(meet, teams, swimmers, warnings). -/
def parse_hy3_lines (M : Hy3Model) (lines : List Str) :
    MeetDict × List ParsedTeam × List ParsedSwimmer × List Warn :=
  let s := runParse M initPState lines
  (s.meet, s.teams, s.swimmers, s.warnings)

/-! ## Archive extractor (`parse_hy3_zip`) -/

/-- Exceptions that the modelled code can raise. -/
inductive PyErr
  | badZipFile
  | integrityError
deriving DecidableEq

def isCont (b : Nat) : Bool := 0x80 ≤ b && b ≤ 0xBF

/-- Fuel-driven worker for permissive UTF-8 decoding; the fuel only bounds the
recursion depth and is always supplied at least the input length. -/
def decodeUtf8Fuel : Nat → List Nat → Str
  | 0, _ => []
  | _, [] => []
  | fuel + 1, b :: t =>
    if b < 0x80 then Char.ofNat b :: decodeUtf8Fuel fuel t
    else if 0xC2 ≤ b && b ≤ 0xDF then
      match t with
      | c1 :: t1 =>
          if isCont c1 then Char.ofNat ((b - 0xC0) * 64 + (c1 - 0x80)) :: decodeUtf8Fuel fuel t1
          else decodeUtf8Fuel fuel t
      | [] => []
    else if 0xE0 ≤ b && b ≤ 0xEF then
      match t with
      | c1 :: c2 :: t2 =>
          let lo1 := if b = 0xE0 then 0xA0 else 0x80
          let hi1 := if b = 0xED then 0x9F else 0xBF
          if lo1 ≤ c1 && c1 ≤ hi1 && isCont c2 then
            Char.ofNat (((b - 0xE0) * 64 + (c1 - 0x80)) * 64 + (c2 - 0x80)) ::
              decodeUtf8Fuel fuel t2
          else decodeUtf8Fuel fuel t
      | _ => decodeUtf8Fuel fuel t
    else if 0xF0 ≤ b && b ≤ 0xF4 then
      match t with
      | c1 :: c2 :: c3 :: t3 =>
          let lo1 := if b = 0xF0 then 0x90 else 0x80
          let hi1 := if b = 0xF4 then 0x8F else 0xBF
          if lo1 ≤ c1 && c1 ≤ hi1 && isCont c2 && isCont c3 then
            Char.ofNat ((((b - 0xF0) * 64 + (c1 - 0x80)) * 64 + (c2 - 0x80)) * 64 + (c3 - 0x80)) ::
              decodeUtf8Fuel fuel t3
          else decodeUtf8Fuel fuel t
      | _ => decodeUtf8Fuel fuel t
    else decodeUtf8Fuel fuel t

/-- Permissive UTF-8 decoding, `errors=ignore`: well-formed sequences decode,
anything else is dropped and decoding continues; never fails. -/
def decodeUtf8Ignore (l : List Nat) : Str :=
  decodeUtf8Fuel l.length l

/-- Python `str.splitlines` on the line separators this program can produce. -/
def splitLinesAux : Str → Str → List Str
  | acc, [] => [acc.reverse]
  | acc, '\r' :: '\n' :: t => acc.reverse :: (if t.isEmpty then [] else splitLinesAux [] t)
  | acc, '\r' :: t => acc.reverse :: (if t.isEmpty then [] else splitLinesAux [] t)
  | acc, '\n' :: t => acc.reverse :: (if t.isEmpty then [] else splitLinesAux [] t)
  | acc, c :: t => splitLinesAux (c :: acc) t

def splitLines (s : Str) : List Str :=
  if s.isEmpty then [] else splitLinesAux [] s

/-- What lies at an archive path: nothing, a corrupt container, or a zip whose
members are named byte strings. -/
inductive ZipInput
  | missing
  | malformed
  | archive (members : List (Str × List Nat))
deriving DecidableEq

/-- Python `name.lower().endswith(ext)`. -/
def lowerEndsWith (name ext : Str) : Bool :=
  ext.isSuffixOf (pyLower name)

/-- `parse_hy3_zip`: locate the `.hy3` member of the archive, decode it
permissively and run the line decoder; a missing file or missing member yields
an absent meet plus warnings, while a corrupt container raises `BadZipFile`
(from `zipfile.ZipFile`). -/
def parse_hy3_zip (M : Hy3Model) (fs : Str → ZipInput) (zipPath : Str) :
    Except PyErr (Option MeetDict × List ParsedTeam × List ParsedSwimmer × List Warn) :=
  match fs zipPath with
  | .missing => .ok (none, [], [], [⟨"FileNotFound".toList, zipPath, []⟩])
  | .malformed => .error .badZipFile
  | .archive members =>
      let names := members.map (fun m => m.1)
      let hy3Files := names.filter (fun n => lowerEndsWith n ".hy3".toList)
      let cl2Files := names.filter (fun n => lowerEndsWith n ".cl2".toList)
      match hy3Files with
      | [] =>
          .ok (none, [], [],
            [⟨"MissingHY3".toList, "Zip does not contain .hy3".toList, names⟩])
      | hy3Name :: restHy3 =>
          let warns1 : List Warn :=
            if restHy3.isEmpty then []
            else [⟨"MultipleHY3".toList,
                   "Multiple .hy3 files found; parsing first".toList, hy3Files⟩]
          let warns2 : List Warn :=
            warns1 ++ (if cl2Files.isEmpty then
              [⟨"MissingCL2".toList, "Zip does not contain .cl2".toList, []⟩] else [])
          let bytes := ((members.find? (fun m => m.1 = hy3Name)).map (fun m => m.2)).getD []
          let content := splitLines (decodeUtf8Ignore bytes)
          let r := parse_hy3_lines M content
          .ok (some r.1, r.2.1, r.2.2.1, warns2 ++ r.2.2.2)

/-! ## Storage layer (`storage/db.py`) -/

/-- A row of the `meets` table. -/
structure MeetRow where
  id : Nat
  region : Str
  meetName : Str
  url : Str
  processedTimestamp : Str
  downloaded : Bool
  filePath : Option Str
  uploaded : Bool
  processedByTarget : Bool
  meetDate : Option Str
  meetYear : Option Int
  location : Option Str
  course : Option Str
  meetDateStart : Option Str
  meetDateEnd : Option Str
  parsed : Bool
deriving DecidableEq

/-- A row of the `teams` table. -/
structure TeamRow where
  id : Nat
  teamCode : Str
  teamName : Str
  teamType : Str
  regionCode : Option Str
  region : Option Str
  address1 : Option Str
  address2 : Option Str
  city : Option Str
  postalCode : Option Str
deriving DecidableEq

/-- A row of the `swimmers` table. -/
structure SwimmerRow where
  id : Nat
  teamId : Option Nat
  firstName : Str
  lastName : Str
  gender : Str
  birthDate : Option Str
  mmNumber : Option Str
deriving DecidableEq

/-- A row of the `meet_team` association table. -/
structure MTRow where
  meetId : Nat
  teamId : Nat
deriving DecidableEq

/-- A row of the `meet_swimmer` association table. -/
structure MSRow where
  meetId : Nat
  swimmerId : Nat
deriving DecidableEq

/-- A row of the `meet_team_swimmer` association table. -/
structure MTSRow where
  meetId : Nat
  teamId : Nat
  swimmerId : Nat
deriving DecidableEq

/-- A row of the `parse_queue` table. -/
structure QueueRow where
  id : Nat
  meetId : Nat
  filePath : Str
  status : Str
  message : Option Str
  createdAt : Str
  updatedAt : Str
deriving DecidableEq

/-- A row of the `error_log` table. -/
structure ErrRow where
  timestamp : Str
  filePath : Option Str
  meetId : Option Nat
  region : Option Str
  errorType : Str
  message : Str
  context : Option Str
deriving DecidableEq

/-- The whole durable store. -/
structure DBState where
  meets : List MeetRow
  teams : List TeamRow
  swimmers : List SwimmerRow
  meetTeam : List MTRow
  meetSwimmer : List MSRow
  meetTeamSwimmer : List MTSRow
  parseQueue : List QueueRow
  errorLog : List ErrRow
  nextTeamId : Nat
  nextSwimmerId : Nat
deriving DecidableEq

/-- `log_error`: append one diagnostic row. -/
def log_error (s : DBState) (now : Str) (filePath : Option Str) (errorType message : Str)
    (context : Option Str) (meetId : Option Nat) (region : Option Str) : DBState :=
  { s with errorLog := s.errorLog ++
      [⟨now, filePath, meetId, region, errorType, message, context⟩] }

/-- The dictionary `get_meet_by_id` returns. -/
structure MeetRef where
  id : Nat
  region : Str
  meetName : Str
  url : Str
  filePath : Option Str
deriving DecidableEq

def findMeetRow (s : DBState) (i : Nat) : Option MeetRow :=
  s.meets.find? (fun r => r.id = i)

/-- `get_meet_by_id`. -/
def get_meet_by_id (s : DBState) (i : Nat) : Option MeetRef :=
  (findMeetRow s i).map (fun r => ⟨r.id, r.region, r.meetName, r.url, r.filePath⟩)

/-- `find_meet_by_canonical`: first row matching (meet_name, meet_date_start). -/
def find_meet_by_canonical (s : DBState) (name iso : Str) : Option Nat :=
  (s.meets.find? (fun r => r.meetName = name ∧ r.meetDateStart = some iso)).map (fun r => r.id)

/-- The merged target row written by the meets UPDATE of `merge_meets`:
boolean flags are OR-combined, `file_path` is set to the Python
`target or source` value, and the nullable descriptive fields to
`COALESCE(target or source, stored)`. -/
def mergeUpdatedRow (t src : MeetRow) : MeetRow :=
  { t with
    downloaded := t.downloaded || src.downloaded,
    filePath := pyOrStr t.filePath src.filePath,
    uploaded := t.uploaded || src.uploaded,
    processedByTarget := t.processedByTarget || src.processedByTarget,
    meetDate := sqlCoalesce (pyOrStr t.meetDate src.meetDate) t.meetDate,
    meetYear := sqlCoalesce (pyOrInt t.meetYear src.meetYear) t.meetYear,
    location := sqlCoalesce (pyOrStr t.location src.location) t.location,
    course := sqlCoalesce (pyOrStr t.course src.course) t.course,
    meetDateStart := sqlCoalesce (pyOrStr t.meetDateStart src.meetDateStart) t.meetDateStart,
    meetDateEnd := sqlCoalesce (pyOrStr t.meetDateEnd src.meetDateEnd) t.meetDateEnd,
    parsed := t.parsed || src.parsed }

/-- Whether the meets UPDATE of `merge_meets` violates `ux_meets_file_path` or
`ux_meets_canonical` and raises `sqlite3.IntegrityError`: a written value that
actually changes, is non-null (SQLite unique indexes treat NULLs as distinct),
and collides with another row — the source row is still present at this point,
so a non-null source `file_path` adopted by a target with a falsy one always
collides with the source row itself. -/
def mergeMeetsUpdateConflict (s : DBState) (targetId : Nat) (t src : MeetRow) : Bool :=
  let u := mergeUpdatedRow t src
  (!(u.filePath == t.filePath) && u.filePath.isSome &&
    s.meets.any (fun o => !(o.id == targetId) && o.filePath == u.filePath)) ||
  (!(u.meetDateStart == t.meetDateStart) && u.meetDateStart.isSome &&
    s.meets.any (fun o => !(o.id == targetId) && o.meetName == t.meetName
      && o.meetDateStart == u.meetDateStart))

/-- Whether `UPDATE meet_team SET meet_id=target WHERE meet_id=source` violates
`UNIQUE(meet_id, team_id)`: some source row repoints onto an existing target
row with the same team. -/
def repointMeetTeamConflict (s : DBState) (sourceId targetId : Nat) : Bool :=
  !(sourceId == targetId) && s.meetTeam.any (fun e1 => e1.meetId == sourceId &&
    s.meetTeam.any (fun e2 => e2.meetId == targetId && e2.teamId == e1.teamId))

/-- The analogous check for `meet_swimmer` and `UNIQUE(meet_id, swimmer_id)`. -/
def repointMeetSwimmerConflict (s : DBState) (sourceId targetId : Nat) : Bool :=
  !(sourceId == targetId) && s.meetSwimmer.any (fun e1 => e1.meetId == sourceId &&
    s.meetSwimmer.any (fun e2 => e2.meetId == targetId && e2.swimmerId == e1.swimmerId))

/-- The analogous check for `meet_team_swimmer` and
`UNIQUE(meet_id, team_id, swimmer_id)`. -/
def repointMeetTeamSwimmerConflict (s : DBState) (sourceId targetId : Nat) : Bool :=
  !(sourceId == targetId) && s.meetTeamSwimmer.any (fun e1 => e1.meetId == sourceId &&
    s.meetTeamSwimmer.any (fun e2 => e2.meetId == targetId && e2.teamId == e1.teamId
      && e2.swimmerId == e1.swimmerId))

/-- State after the meets UPDATE of `merge_meets`. -/
def mergeS1 (s : DBState) (targetId : Nat) (t src : MeetRow) : DBState :=
  { s with meets := s.meets.map (fun (r : MeetRow) =>
      if r.id = targetId then mergeUpdatedRow t src else r) }

/-- State after the `meet_team` repoint. -/
def mergeS2 (s : DBState) (sourceId targetId : Nat) : DBState :=
  { s with meetTeam := s.meetTeam.map (fun (e : MTRow) =>
      if e.meetId = sourceId then { e with meetId := targetId } else e) }

/-- State after the `meet_swimmer` repoint. -/
def mergeS3 (s : DBState) (sourceId targetId : Nat) : DBState :=
  { s with meetSwimmer := s.meetSwimmer.map (fun (e : MSRow) =>
      if e.meetId = sourceId then { e with meetId := targetId } else e) }

/-- State after the `meet_team_swimmer`, `parse_queue` and `error_log`
repoints; the last two tables carry no unique index over `meet_id`, so their
UPDATEs cannot raise. -/
def mergeS4 (s : DBState) (sourceId targetId : Nat) : DBState :=
  { s with
    meetTeamSwimmer := s.meetTeamSwimmer.map (fun (e : MTSRow) =>
      if e.meetId = sourceId then { e with meetId := targetId } else e),
    parseQueue := s.parseQueue.map (fun (e : QueueRow) =>
      if e.meetId = sourceId then { e with meetId := targetId } else e),
    errorLog := s.errorLog.map (fun (e : ErrRow) =>
      if e.meetId = some sourceId then { e with meetId := some targetId } else e) }

/-- State after the final `DELETE FROM meets WHERE id=source`. -/
def mergeFinal (s : DBState) (sourceId : Nat) : DBState :=
  { s with meets := s.meets.filter (fun r => r.id ≠ sourceId) }

/-- `merge_meets`: consolidate the source row into the target row, repoint all
meet references, delete the source row; a missing row makes it a no-op.  Each
SQL statement runs in turn and an IntegrityError aborts the merge there —
`_retry_write` retries only locked-database OperationalErrors, so a
unique-index violation propagates, leaving the earlier statements' writes in
place and the source row undeleted. -/
def merge_meets (s : DBState) (sourceId targetId : Nat) : DBState × Option PyErr :=
  match findMeetRow s targetId, findMeetRow s sourceId with
  | some t, some src =>
      if mergeMeetsUpdateConflict s targetId t src then (s, some .integrityError)
      else
        let s1 := mergeS1 s targetId t src
        if repointMeetTeamConflict s1 sourceId targetId then (s1, some .integrityError)
        else
          let s2 := mergeS2 s1 sourceId targetId
          if repointMeetSwimmerConflict s2 sourceId targetId then (s2, some .integrityError)
          else
            let s3 := mergeS3 s2 sourceId targetId
            if repointMeetTeamSwimmerConflict s3 sourceId targetId then
              (s3, some .integrityError)
            else (mergeFinal (mergeS4 s3 sourceId targetId) sourceId, none)
  | _, _ => (s, none)

/-- The `meet_name` parameter of the canonical update:
`(meet_data.get("meet_name") or "").strip() or None`. -/
def umNameParam (md : MeetDict) : Option Str :=
  let stripped := pyStrip (md.meetName.getD [])
  if stripped.isEmpty then none else some stripped

/-- ISO start date derived from the decoded DDMMYYYY start date. -/
def umIsoStart (md : MeetDict) : Option Str :=
  _iso_from_ddmmyyyy (if pyTruthyStr md.meetDateStart then md.meetDateStart else none)

/-- ISO end date derived from the decoded DDMMYYYY end date. -/
def umIsoEnd (md : MeetDict) : Option Str :=
  _iso_from_ddmmyyyy (if pyTruthyStr md.meetDateEnd then md.meetDateEnd else none)

/-- The row produced by the canonical `UPDATE meets SET ...` statement. -/
def umUpdatedRow (md : MeetDict) (r : MeetRow) : MeetRow :=
  { r with
    meetName := (umNameParam md).getD r.meetName,
    meetDateStart := sqlCoalesce (umIsoStart md) r.meetDateStart,
    meetDateEnd := sqlCoalesce (umIsoEnd md) r.meetDateEnd,
    meetDate := sqlCoalesce (umIsoStart md) r.meetDate,
    course := sqlCoalesce md.course r.course,
    location := sqlCoalesce md.locationText r.location,
    meetYear := md.meetYear,
    parsed := true }

/-- Whether the canonical update would violate the unique index
`ux_meets_canonical (meet_name, meet_date_start)` (SQLite treats NULLs in a
unique index as distinct). -/
def umConflict (s : DBState) (mrId : Nat) (md : MeetDict) : Bool :=
  match findMeetRow s mrId with
  | none => false
  | some r =>
      let u := umUpdatedRow md r
      match u.meetDateStart with
      | none => false
      | some v =>
          s.meets.any (fun o => o.id ≠ mrId && o.meetName == u.meetName
            && o.meetDateStart == some v)

/-- The proactive canonical-duplicate target of `update_meet_from_hy3`. -/
def umProactiveTarget (s : DBState) (mrId : Nat) (md : MeetDict) : Option Nat :=
  if pyTruthyStr md.meetName ∧ (umIsoStart md).isSome then
    match find_meet_by_canonical s (pyStrip (md.meetName.getD [])) ((umIsoStart md).getD []) with
    | some oid => if oid ≠ mrId then some oid else none
    | none => none
  else none

/-- `update_meet_from_hy3`: merge into an existing canonical row if one exists
(proactively, or reactively on the uniqueness violation the update raises),
otherwise apply the canonical update; an unhandled violation re-raises. -/
def update_meet_from_hy3 (s : DBState) (now : Str) (mr : MeetRef) (md : MeetDict) :
    DBState × Option PyErr :=
  match umProactiveTarget s mr.id md with
  | some oid =>
      let s1 := log_error s now mr.filePath "CanonicalMerge".toList
        ("Merging meet ".toList ++ natToStr mr.id ++ " into canonical ".toList ++ natToStr oid)
        (some "source target meet_name meet_date_start_iso".toList) none none
      merge_meets s1 mr.id oid
  | none =>
      if umConflict s mr.id md then
        if pyTruthyStr md.meetName ∧ (umIsoStart md).isSome then
          match find_meet_by_canonical s (pyStrip (md.meetName.getD []))
              ((umIsoStart md).getD []) with
          | some oid =>
              if oid ≠ mr.id then
                let s1 := log_error s now mr.filePath "CanonicalMerge".toList
                  ("IntegrityError on canonical update; merging ".toList ++ natToStr mr.id
                    ++ " into ".toList ++ natToStr oid)
                  (some "source target error".toList) none none
                merge_meets s1 mr.id oid
              else (s, some .integrityError)
          | none => (s, some .integrityError)
        else (s, some .integrityError)
      else
        ({ s with meets := s.meets.map (fun r =>
            if r.id = mr.id then umUpdatedRow md r else r) }, none)

/-- One upsert step of `insert_teams`: the global team upsert followed by the
id lookup that extends the code-to-id dictionary. -/
def insertTeamsStep (meetId : Nat) (acc : DBState × List (Str × Nat)) (t : ParsedTeam) :
    DBState × List (Str × Nat) :=
  let s := acc.1
  let tCode := t.teamCode
  let tName := t.teamName
  let upserted : DBState :=
    if s.teams.any (fun e => e.teamCode == tCode && e.teamName == tName) then
      { s with teams := s.teams.map (fun e =>
          if e.teamCode = tCode ∧ e.teamName = tName then
            { e with
              teamType := t.teamType,
              regionCode := sqlCoalesce (some t.regionCode) e.regionCode,
              region := sqlCoalesce (some t.region) e.region,
              address1 := sqlCoalesce (some (t.address1.getD [])) e.address1,
              address2 := sqlCoalesce (some (t.address2.getD [])) e.address2,
              city := sqlCoalesce (some (t.city.getD [])) e.city,
              postalCode := sqlCoalesce (some (t.postalCode.getD [])) e.postalCode }
          else e) }
    else
      { s with
        teams := s.teams ++
          [{ id := s.nextTeamId, teamCode := tCode, teamName := tName,
             teamType := t.teamType, regionCode := some t.regionCode,
             region := some t.region, address1 := some (t.address1.getD []),
             address2 := some (t.address2.getD []), city := some (t.city.getD []),
             postalCode := some (t.postalCode.getD []) }],
        nextTeamId := s.nextTeamId + 1 }
  match upserted.teams.find? (fun e => e.teamCode = tCode ∧ e.teamName = tName) with
  | some row => (upserted, dictUpsert acc.2 tCode row.id)
  | none => (upserted, acc.2)

/-- `insert_teams`: upsert each decoded team globally and return the updated
store plus the team_code to row-id dictionary. -/
def insert_teams (s : DBState) (meetId : Nat) (teams : List ParsedTeam) :
    DBState × List (Str × Nat) :=
  teams.foldl (insertTeamsStep meetId) (s, [])

/-- Python `x or None` on an optional string. -/
def pyOrNone (a : Option Str) : Option Str :=
  if pyTruthyStr a then a else none

/-- One step of `insert_swimmers`: insert-or-ignore on the swimmer identity
index, then resolve the row id by the exact lookup the code performs. -/
def insertSwimmersStep (teamIdMap : List (Str × Nat)) (acc : DBState × List Nat)
    (sw : ParsedSwimmer) : DBState × List Nat :=
  let s := acc.1
  let teamPk := dictGet teamIdMap sw.teamCode
  let b := pyOrNone sw.birthDate
  let conflict := s.swimmers.any (fun e =>
    e.firstName == sw.firstName && e.lastName == sw.lastName && e.gender == sw.gender
      && b.isSome && e.birthDate == b && e.mmNumber == some sw.mmNumber
      && teamPk.isSome && e.teamId == teamPk)
  let s1 :=
    if conflict then s
    else { s with
      swimmers := s.swimmers ++
        [{ id := s.nextSwimmerId, teamId := teamPk, firstName := sw.firstName,
           lastName := sw.lastName, gender := sw.gender, birthDate := b,
           mmNumber := some sw.mmNumber }],
      nextSwimmerId := s.nextSwimmerId + 1 }
  match s1.swimmers.find? (fun e =>
      e.firstName = sw.firstName ∧ e.lastName = sw.lastName ∧ e.gender = sw.gender
        ∧ e.birthDate.getD [] = b.getD [] ∧ e.mmNumber = some sw.mmNumber
        ∧ e.teamId.getD 0 = teamPk.getD 0) with
  | some row => (s1, acc.2 ++ [row.id])
  | none => (s1, acc.2)

/-- `insert_swimmers`. -/
def insert_swimmers (s : DBState) (meetId : Nat) (swimmers : List ParsedSwimmer)
    (teamIdMap : List (Str × Nat)) : DBState × List Nat :=
  swimmers.foldl (insertSwimmersStep teamIdMap) (s, [])

/-- `link_meet_teams`: idempotent membership inserts into `meet_team`, with a
link warning for an empty list or a null id. -/
def link_meet_teams (s : DBState) (now : Str) (meetId : Nat) (teamIds : List (Option Nat)) :
    DBState :=
  if teamIds.isEmpty then
    log_error s now none "LinkWarning".toList
      ("No teams to link for meet_id=".toList ++ natToStr meetId) (some "meet_id".toList)
      none none
  else
    teamIds.foldl (fun acc tid =>
      match tid with
      | none =>
          log_error acc now none "LinkWarning".toList
            ("Skipping None team_id for meet_id=".toList ++ natToStr meetId)
            (some "meet_id".toList) none none
      | some t =>
          if acc.meetTeam.any (fun e => e.meetId == meetId && e.teamId == t) then acc
          else { acc with meetTeam := acc.meetTeam ++ [⟨meetId, t⟩] }) s

/-- `link_meet_swimmers`. -/
def link_meet_swimmers (s : DBState) (now : Str) (meetId : Nat)
    (swimmerIds : List (Option Nat)) : DBState :=
  if swimmerIds.isEmpty then
    log_error s now none "LinkWarning".toList
      ("No swimmers to link for meet_id=".toList ++ natToStr meetId) (some "meet_id".toList)
      none none
  else
    swimmerIds.foldl (fun acc sid =>
      match sid with
      | none =>
          log_error acc now none "LinkWarning".toList
            ("Skipping None swimmer_id for meet_id=".toList ++ natToStr meetId)
            (some "meet_id".toList) none none
      | some w =>
          if acc.meetSwimmer.any (fun e => e.meetId == meetId && e.swimmerId == w) then acc
          else { acc with meetSwimmer := acc.meetSwimmer ++ [⟨meetId, w⟩] }) s

/-- `link_meet_teams_swimmers`: resolve each swimmer's team and insert the
triple, logging a link warning when the team cannot be resolved. -/
def link_meet_teams_swimmers (s : DBState) (now : Str) (meetId : Nat)
    (swimmerIds : List Nat) : DBState :=
  if swimmerIds.isEmpty then
    log_error s now none "LinkWarning".toList
      ("No swimmer_ids for meet_team_swimmer linking meet_id=".toList ++ natToStr meetId)
      (some "meet_id".toList) none none
  else
    swimmerIds.foldl (fun acc sid =>
      let teamId := (acc.swimmers.find? (fun e => e.id = sid)).bind (fun e => e.teamId)
      match teamId with
      | none =>
          log_error acc now none "LinkWarning".toList
            ("Swimmer ".toList ++ natToStr sid
              ++ " has no team_id; cannot link meet_team_swimmer".toList)
            (some "meet_id swimmer_id".toList) none none
      | some t =>
          if acc.meetTeamSwimmer.any (fun e =>
              e.meetId == meetId && e.teamId == t && e.swimmerId == sid) then acc
          else { acc with meetTeamSwimmer := acc.meetTeamSwimmer ++ [⟨meetId, t, sid⟩] }) s

/-- `mark_parsed`. -/
def mark_parsed (s : DBState) (meetId : Nat) : DBState :=
  { s with meets := s.meets.map (fun r => if r.id = meetId then { r with parsed := true } else r) }

/-- `update_parse_queue_status`. -/
def update_parse_queue_status (s : DBState) (now : Str) (qid : Nat) (status : Str)
    (message : Option Str) : DBState :=
  { s with parseQueue := s.parseQueue.map (fun r =>
      if r.id = qid then { r with status := status, message := message, updatedAt := now }
      else r) }

/-- `get_parse_queue`: the queued/retry snapshot ordered by id. -/
def get_parse_queue (s : DBState) : List QueueRow :=
  List.insertionSort (fun (a b : QueueRow) => a.id ≤ b.id)
    (s.parseQueue.filter (fun r =>
      r.status == "queued".toList || r.status == "retry".toList))

/-! ## Ingestion pipeline (`pipeline/ingest_results.py`) -/

/-- The ambient world of a run: the loaded schema model, what lies at each
archive path, and the clock. -/
structure Env where
  model : Hy3Model
  fs : Str → ZipInput
  now : Str

/-- `str(e)` for the modelled exceptions. -/
def errStr : PyErr → Str
  | .badZipFile => "File is not a zip file".toList
  | .integrityError => "UNIQUE constraint failed".toList

/-- `ingest_zip`: decode one archive and run the resolver; returns the mutated
store together with the exception that escaped, if any.  A missing meet row is
only logged — the function returns normally in that case. -/
def ingest_zip (env : Env) (s : DBState) (zipPath : Str) (meetRow : Option MeetRef) :
    DBState × Option PyErr :=
  match meetRow with
  | none =>
      (log_error s env.now (some zipPath) "IngestError".toList
        "Meet row not found for queued item".toList (some zipPath) none none, none)
  | some mr =>
      match parse_hy3_zip env.model env.fs zipPath with
      | .error e => (s, some e)
      | .ok (meetOpt, teams, swimmers, warnings) =>
          let meetTruthy := match meetOpt with
            | none => false
            | some m => meetDictTruthy m
          if !meetTruthy then
            (warnings.foldl (fun acc w =>
              log_error acc env.now (some zipPath) w.wtype w.message
                (some "warning".toList) none none) s, none)
          else
            let md := meetOpt.getD emptyMeetDict
            let (s1, err) := update_meet_from_hy3 s env.now mr md
            match err with
            | some e => (s1, some e)
            | none =>
                let (s2, teamIdMap) := insert_teams s1 mr.id teams
                let s3 := link_meet_teams s2 env.now mr.id
                  ((teamIdMap.map (fun p => p.2)).map some)
                let (s4, swimmerIds) := insert_swimmers s3 mr.id swimmers teamIdMap
                let s5 := link_meet_swimmers s4 env.now mr.id (swimmerIds.map some)
                let s6 := link_meet_teams_swimmers s5 env.now mr.id swimmerIds
                let s7 := warnings.foldl (fun acc w =>
                  log_error acc env.now (some zipPath) w.wtype w.message
                    (some "warning".toList) (some mr.id) none) s6
                (mark_parsed s7 mr.id, none)

/-- The body of the `ingest_queue` loop for one snapshot item: mark processing,
resolve the meet, ingest, and mark done or error. -/
def process_queue_item (env : Env) (s : DBState) (item : QueueRow) : DBState :=
  let s1 := update_parse_queue_status s env.now item.id "processing".toList none
  let r := ingest_zip env s1 item.filePath (get_meet_by_id s1 item.meetId)
  match r.2 with
  | none => update_parse_queue_status r.1 env.now item.id "done".toList none
  | some e =>
      let s3 := update_parse_queue_status r.1 env.now item.id "error".toList (some (errStr e))
      log_error s3 env.now (some item.filePath) "IngestError".toList (errStr e) none
        (some item.meetId) none

/-- `ingest_queue`: drain a fixed snapshot of the queue sequentially. -/
def ingest_queue (env : Env) (s : DBState) : DBState :=
  (get_parse_queue s).foldl (process_queue_item env) s

/-! ## A concrete schema model instance, used for concrete evaluations -/

/-- A small concrete schema model with the record identifiers of the real
HY3 schema (B1, B2, C1, C2, D1) and compact field offsets. -/
def sampleHy3Model : Hy3Model :=
  { meetInfo :=
      { rowIdentifier := "B1".toList,
        name := ⟨some 3, some 6⟩, location := ⟨some 9, some 6⟩,
        meetDateStart := ⟨some 15, some 8⟩, meetDateEnd := ⟨some 23, some 8⟩,
        dateFormat := some "MMDDYYYY".toList },
    meetInfoExtended :=
      { rowIdentifier := some "B2".toList,
        meetTypeCode := ⟨some 3, some 2⟩, courseCode := ⟨some 5, some 1⟩,
        meetType := [("01".toList, "Age Group".toList), ("03".toList, "High School".toList),
          ("04".toList, "College".toList)],
        meetTypeFallback := some "Other".toList,
        course := [("S".toList, "SCM".toList), ("L".toList, "LCM".toList),
          ("Y".toList, "SCY".toList)] },
    teamInfo :=
      { rowIdentifier := "C1".toList,
        teamName := ⟨some 8, some 10⟩,
        overridesMeetType :=
          [("03".toList,
            { teamCode := ⟨some 3, some 5⟩, regionCode := ⟨some 18, some 3⟩,
              teamType := some "High School".toList }),
           ("fallback".toList,
            { teamCode := ⟨some 3, some 5⟩, regionCode := ⟨some 18, some 3⟩,
              teamType := some "Club".toList })] },
    teamInfoExtended :=
      { rowIdentifier := some "C2".toList,
        address1 := ⟨some 3, some 6⟩, address2 := ⟨some 9, some 6⟩,
        city := ⟨some 15, some 6⟩, postalCode := ⟨some 21, some 4⟩ },
    swimmerInfo :=
      { rowIdentifier := "D1".toList,
        gender := ⟨some 3, some 1⟩, lastName := ⟨some 4, some 8⟩,
        firstName := ⟨some 12, some 8⟩, mmNumber := ⟨some 20, some 5⟩,
        birthDate := ⟨some 25, some 8⟩, birthDateFormat := some "MMDDYYYY".toList },
    teamNameDetection :=
      [("high school".toList, "High School".toList), ("college".toList, "College".toList),
       ("default".toList, "Club".toList)],
    regionCodes :=
      [("Auckland".toList, ["AKL".toList]), ("Wellington".toList, ["WGN".toList])] }

/-! ## Theorems -/

theorem pyRstrip_append (x : Str) : ∃ t, pyRstrip x ++ t = x := by
  refine ⟨(x.reverse.takeWhile pyIsSpace).reverse, ?_⟩
  have h : x.reverse.takeWhile pyIsSpace ++ x.reverse.dropWhile pyIsSpace = x.reverse :=
    List.takeWhile_append_dropWhile pyIsSpace x.reverse
  calc pyRstrip x ++ (x.reverse.takeWhile pyIsSpace).reverse
      = (x.reverse.takeWhile pyIsSpace ++ x.reverse.dropWhile pyIsSpace).reverse := by
        unfold pyRstrip; rw [List.reverse_append]
    _ = x.reverse.reverse := by rw [h]
    _ = x := List.reverse_reverse x

theorem pyRstrip_length_le (x : Str) : (pyRstrip x).length ≤ x.length := by
  obtain ⟨t, ht⟩ := pyRstrip_append x
  calc (pyRstrip x).length ≤ (pyRstrip x).length + t.length := Nat.le_add_right _ _
    _ = x.length := by rw [← List.length_append, ht]

theorem pySliceIJ_eq (line : Str) (i : Nat) (j : Int) :
    pySliceIJ line i j = (line.drop i).take
      ((if j < 0 then ((line.length : Int) + j).toNat else j.toNat) - i) := rfl

theorem pySliceIJ_within (line : Str) (i : Nat) (j : Int) :
    ∃ pre post, pre ++ pySliceIJ line i j ++ post = line := by
  refine ⟨line.take i, (line.drop i).drop ((if j < 0 then ((line.length : Int) + j).toNat
    else j.toNat) - i), ?_⟩
  rw [pySliceIJ_eq, List.append_assoc, List.take_append_drop, List.take_append_drop]

/-- Claim C10: field extraction is total: a missing start or length yields the
empty string; the extracted value is always drawn from within the line (so an
extent lying partly or wholly past the end of the line is simply truncated, and
a start past the end yields the empty string); for a nonnegative declared
length the result never exceeds it.  No case can fail. -/
theorem c10_slice_total (line : Str) (st len : Option Int) :
    ((st = none ∨ len = none) → _slice line st len = []) ∧
    (∃ pre post, pre ++ _slice line st len ++ post = line) ∧
    (∀ i l : Int, st = some i → len = some l → 0 ≤ l →
      (_slice line st len).length ≤ l.toNat) ∧
    (∀ i : Int, st = some i → line.length ≤ (i - 1).toNat → _slice line st len = []) := by
  refine ⟨?_, ?_, ?_, ?_⟩
  · rintro (rfl | rfl)
    · rfl
    · cases st <;> rfl
  · cases st with
    | none => exact ⟨[], line, by simp [_slice]⟩
    | some i =>
      cases len with
      | none => exact ⟨[], line, by simp [_slice]⟩
      | some l =>
        have he : _slice line (some i) (some l) =
            pyRstrip (pySliceIJ line (i - 1).toNat (Int.ofNat (i - 1).toNat + l)) := rfl
        obtain ⟨t, ht⟩ := pyRstrip_append (pySliceIJ line (i - 1).toNat
          (Int.ofNat (i - 1).toNat + l))
        obtain ⟨pre, post, hp⟩ := pySliceIJ_within line (i - 1).toNat
          (Int.ofNat (i - 1).toNat + l)
        refine ⟨pre, t ++ post, ?_⟩
        rw [he, show pre ++ pyRstrip (pySliceIJ line (i - 1).toNat
          (Int.ofNat (i - 1).toNat + l)) ++ (t ++ post) =
          pre ++ (pyRstrip (pySliceIJ line (i - 1).toNat
            (Int.ofNat (i - 1).toNat + l)) ++ t) ++ post by simp, ht, hp]
  · rintro i l rfl rfl hl
    have he : _slice line (some i) (some l) =
        pyRstrip (pySliceIJ line (i - 1).toNat (Int.ofNat (i - 1).toNat + l)) := rfl
    rw [he, pySliceIJ_eq]
    refine le_trans (pyRstrip_length_le _) (le_trans (List.length_take_le _ _) ?_)
    have hnn : 0 ≤ Int.ofNat (i - 1).toNat := Int.ofNat_nonneg _
    have hj : ¬ (Int.ofNat (i - 1).toNat + l < 0) := by omega
    rw [if_neg hj]
    simp only [Int.ofNat_eq_natCast] at hnn ⊢
    omega
  · rintro i rfl hlen
    cases len with
    | none => rfl
    | some l =>
      have he : _slice line (some i) (some l) =
          pyRstrip (pySliceIJ line (i - 1).toNat (Int.ofNat (i - 1).toNat + l)) := rfl
      rw [he, pySliceIJ_eq, List.drop_eq_nil_of_le hlen]
      simp [pyRstrip]

/-- Witness for C10 at concrete inputs: a missing start yields the empty
string, and an over-long extent on a short line stays within the line and
within the declared length. -/
theorem c10_slice_total_witness :
    _slice "AB".toList none (some 3) = [] ∧
    (∃ pre post, pre ++ _slice "AB".toList (some 1) (some 50) ++ post = "AB".toList) ∧
    (_slice "AB".toList (some 1) (some 50)).length ≤ (50 : Int).toNat ∧
    _slice "AB".toList (some 7) (some 2) = [] := by
  refine ⟨(c10_slice_total "AB".toList none (some 3)).1 (Or.inl rfl),
    (c10_slice_total "AB".toList (some 1) (some 50)).2.1,
    (c10_slice_total "AB".toList (some 1) (some 50)).2.2.1 1 50 rfl rfl (by decide),
    (c10_slice_total "AB".toList (some 7) (some 2)).2.2.2 7 rfl (by decide)⟩

/-- Counterexample to claim C6 as stated: the extractor does raise on a
malformed (non-zip) container — `zipfile.ZipFile` throws `BadZipFile` before
any of the warning paths can run. -/
theorem c6_counterexample :
    parse_hy3_zip sampleHy3Model (fun _ => ZipInput.malformed) "results.zip".toList =
      Except.error PyErr.badZipFile := rfl

/-- Claim C6 (amended): for every input archive path whose content is not a
corrupt container — i.e. a missing file, or a well-formed archive with
arbitrary members, including members whose bytes do not decode — the extractor
returns a (meet, teams, swimmers, warnings) tuple and never raises; undecodable
bytes are dropped by the permissive decoder, never raised.  A corrupt container
raises `BadZipFile`. -/
theorem c6_extractor_total (M : Hy3Model) (fs : Str → ZipInput) (path : Str)
    (hne : fs path ≠ ZipInput.malformed) :
    ∃ out, parse_hy3_zip M fs path = Except.ok out := by
  unfold parse_hy3_zip
  cases h : fs path with
  | missing => exact ⟨_, rfl⟩
  | malformed => exact absurd h hne
  | archive members =>
      dsimp only
      cases hf : (members.map (fun m => m.1)).filter
          (fun n => lowerEndsWith n ".hy3".toList) with
      | nil => exact ⟨_, rfl⟩
      | cons hd tl => exact ⟨_, rfl⟩

/-- Witness for C6 (amended) at a concrete archive whose `.hy3` member starts
with an undecodable byte: extraction still returns a tuple. -/
theorem c6_extractor_total_witness :
    ∃ out, parse_hy3_zip sampleHy3Model
      (fun _ => ZipInput.archive [("r.hy3".toList, [255, 66, 200, 67])])
      "results.zip".toList = Except.ok out :=
  c6_extractor_total sampleHy3Model
    (fun _ => ZipInput.archive [("r.hy3".toList, [255, 66, 200, 67])])
    "results.zip".toList (by decide)

theorem find_filter_ne_self (l : List MeetRow) (a : Nat) :
    (l.filter (fun r => r.id ≠ a)).find? (fun r => r.id = a) = none := by
  apply List.find?_eq_none.mpr
  intro x hx
  have hne := (List.mem_filter.mp hx).2
  simp only [decide_not] at hne
  simpa using hne

theorem merge_meets_success (s : DBState) (a b : Nat) (ra rb : MeetRow)
    (hra : findMeetRow s a = some ra) (hrb : findMeetRow s b = some rb)
    (hok : (merge_meets s a b).2 = none) :
    merge_meets s a b =
      (mergeFinal (mergeS4 (mergeS3 (mergeS2 (mergeS1 s b rb ra) a b) a b) a b) a,
        none) := by
  have hred : merge_meets s a b =
      (if mergeMeetsUpdateConflict s b rb ra then (s, some PyErr.integrityError)
       else if repointMeetTeamConflict (mergeS1 s b rb ra) a b then
         (mergeS1 s b rb ra, some PyErr.integrityError)
       else if repointMeetSwimmerConflict (mergeS2 (mergeS1 s b rb ra) a b) a b then
         (mergeS2 (mergeS1 s b rb ra) a b, some PyErr.integrityError)
       else if repointMeetTeamSwimmerConflict
           (mergeS3 (mergeS2 (mergeS1 s b rb ra) a b) a b) a b then
         (mergeS3 (mergeS2 (mergeS1 s b rb ra) a b) a b, some PyErr.integrityError)
       else (mergeFinal (mergeS4 (mergeS3 (mergeS2 (mergeS1 s b rb ra) a b) a b) a b) a,
         none)) := by
    unfold merge_meets
    rw [hrb, hra]
  rw [hred] at hok ⊢
  by_cases h1 : mergeMeetsUpdateConflict s b rb ra
  · rw [if_pos h1] at hok
    exact absurd hok (by simp)
  rw [if_neg h1] at hok ⊢
  by_cases h2 : repointMeetTeamConflict (mergeS1 s b rb ra) a b
  · rw [if_pos h2] at hok
    exact absurd hok (by simp)
  rw [if_neg h2] at hok ⊢
  by_cases h3 : repointMeetSwimmerConflict (mergeS2 (mergeS1 s b rb ra) a b) a b
  · rw [if_pos h3] at hok
    exact absurd hok (by simp)
  rw [if_neg h3] at hok ⊢
  by_cases h4 : repointMeetTeamSwimmerConflict
      (mergeS3 (mergeS2 (mergeS1 s b rb ra) a b) a b) a b
  · rw [if_pos h4] at hok
    exact absurd hok (by simp)
  rw [if_neg h4]

/-- Claim C5 (amended): when the first merge of A into B completes without
raising an IntegrityError, it deletes the source row A, so the second call
finds no source row and returns the store unchanged, with no error.  (When the
first call instead hits a unique-index violation it raises and A survives —
see the counterexample.) -/
theorem c5_merge_idempotent (s : DBState) (a b : Nat)
    (ha : (findMeetRow s a).isSome) (hb : (findMeetRow s b).isSome)
    (hok : (merge_meets s a b).2 = none) :
    findMeetRow (merge_meets s a b).1 a = none ∧
    merge_meets (merge_meets s a b).1 a b = ((merge_meets s a b).1, none) := by
  obtain ⟨ra, hra⟩ := Option.isSome_iff_exists.mp ha
  obtain ⟨rb, hrb⟩ := Option.isSome_iff_exists.mp hb
  have hchar := merge_meets_success s a b ra rb hra hrb hok
  have hgone : findMeetRow (merge_meets s a b).1 a = none := by
    rw [hchar]
    exact find_filter_ne_self _ a
  refine ⟨hgone, ?_⟩
  generalize hm : (merge_meets s a b).1 = m at hgone ⊢
  unfold merge_meets
  rw [hgone]
  cases findMeetRow m b <;> rfl

def wMeetRow (i : Nat) : MeetRow :=
  { id := i, region := "r".toList, meetName := "m".toList, url := natToStr i,
    processedTimestamp := "t".toList, downloaded := false, filePath := none,
    uploaded := false, processedByTarget := false, meetDate := none, meetYear := none,
    location := none, course := none, meetDateStart := none, meetDateEnd := none,
    parsed := false }

def wC5State : DBState :=
  { meets := [wMeetRow 1, wMeetRow 2], teams := [], swimmers := [], meetTeam := [],
    meetSwimmer := [], meetTeamSwimmer := [], parseQueue := [], errorLog := [],
    nextTeamId := 1, nextSwimmerId := 1 }

/-- Witness for C5 (amended) on a concrete store holding meets 1 and 2 whose
merge raises nothing. -/
theorem c5_merge_idempotent_witness :
    findMeetRow (merge_meets wC5State 1 2).1 1 = none ∧
    merge_meets (merge_meets wC5State 1 2).1 1 2 = ((merge_meets wC5State 1 2).1, none) :=
  c5_merge_idempotent wC5State 1 2 (by decide) (by decide) (by decide)

def cexC5RowA : MeetRow :=
  { wMeetRow 1 with filePath := some "x.zip".toList }

def cexC5State : DBState :=
  { meets := [cexC5RowA, wMeetRow 2], teams := [], swimmers := [], meetTeam := [],
    meetSwimmer := [], meetTeamSwimmer := [], parseQueue := [], errorLog := [],
    nextTeamId := 1, nextSwimmerId := 1 }

/-- Counterexample to claim C5 as stated: source meet 1 holds a file path and
target meet 2 holds none, so the first call's meets UPDATE would copy the
source's non-null file_path onto the target while the source row still holds
it — a `ux_meets_file_path` violation.  The call raises IntegrityError and row
A survives, after the first call and after calling twice, contradicting "the
second call is a no-op (A no longer exists)". -/
theorem c5_counterexample :
    (merge_meets cexC5State 1 2).2 = some PyErr.integrityError ∧
    findMeetRow (merge_meets cexC5State 1 2).1 1 = some cexC5RowA ∧
    findMeetRow (merge_meets (merge_meets cexC5State 1 2).1 1 2).1 1 = some cexC5RowA :=
  ⟨by decide, by decide, by decide⟩

theorem find_map_update_filter (l : List MeetRow) (a b : Nat) (u : MeetRow)
    (hfound : (l.find? (fun r => r.id = b)).isSome) (hui : u.id = b) (hab : a ≠ b) :
    ((l.map (fun r => if r.id = b then u else r)).filter (fun r => r.id ≠ a)).find?
      (fun r => r.id = b) = some u := by
  induction l with
  | nil => simp [List.find?] at hfound
  | cons r t ih =>
    simp only [List.map_cons]
    by_cases hr : r.id = b
    · rw [if_pos hr, List.filter_cons_of_pos (by simp [hui]; exact fun h => hab h.symm),
        List.find?_cons_of_pos _ (by simp [hui])]
    · rw [if_neg hr]
      have hfound2 : (t.find? (fun r => r.id = b)).isSome := by
        rw [List.find?_cons_of_neg _ (by simpa using hr)] at hfound
        exact hfound
      by_cases hra : r.id = a
      · rw [List.filter_cons_of_neg (by simpa using hra)]
        exact ih hfound2
      · rw [List.filter_cons_of_pos (by simpa using hra),
          List.find?_cons_of_neg _ (by simpa using hr)]
        exact ih hfound2

theorem find_map_update_filter_other (l : List MeetRow) (a b c : Nat) (u : MeetRow)
    (hui : u.id = b) (hca : c ≠ a) (hcb : c ≠ b) :
    ((l.map (fun r => if r.id = b then u else r)).filter (fun r => r.id ≠ a)).find?
      (fun r => r.id = c) = l.find? (fun r => r.id = c) := by
  induction l with
  | nil => rfl
  | cons r t ih =>
    simp only [List.map_cons]
    by_cases hr : r.id = b
    · rw [if_pos hr]
      have hrc : ¬ r.id = c := by rw [hr]; exact fun h => hcb h.symm
      rw [List.find?_cons_of_neg _ (by simpa using hrc)]
      by_cases hba : b = a
      · rw [List.filter_cons_of_neg (by simp [hui, hba])]
        exact ih
      · rw [List.filter_cons_of_pos (by simpa [hui] using hba),
          List.find?_cons_of_neg _ (by simp [hui]; exact fun h => hcb h.symm)]
        exact ih
    · rw [if_neg hr]
      by_cases hra : r.id = a
      · have hrc : ¬ r.id = c := by rw [hra]; exact fun h => hca h.symm
        rw [List.filter_cons_of_neg (by simpa using hra),
          List.find?_cons_of_neg _ (by simpa using hrc)]
        exact ih
      · rw [List.filter_cons_of_pos (by simpa using hra)]
        by_cases hrc : r.id = c
        · rw [List.find?_cons_of_pos _ (by simpa using hrc),
            List.find?_cons_of_pos _ (by simpa using hrc)]
        · rw [List.find?_cons_of_neg _ (by simpa using hrc),
            List.find?_cons_of_neg _ (by simpa using hrc)]
          exact ih

/-- Claim C4 (amended): for distinct stored meet rows (source `a`, target `b`),
when no unique-index violation interrupts it (an IntegrityError aborts the
merge partway, with the source row surviving), `merge_meets` leaves the target
surviving with every boolean progress flag the OR of the two rows, every
nullable descriptive field combined by the Python `target or source` rule —
target's value is kept when it is truthy, a falsy (null, empty or zero) target
value falls back to source's value, and the stored target value is kept only
when that combination is null — all meet references in the association tables,
the parse queue and the error log repointed from source to target, the source
row deleted, and unrelated meets untouched. -/
theorem c4_merge_effect (s : DBState) (a b : Nat) (ra rb : MeetRow)
    (hra : findMeetRow s a = some ra) (hrb : findMeetRow s b = some rb) (hab : a ≠ b)
    (hok : (merge_meets s a b).2 = none) :
    findMeetRow (merge_meets s a b).1 b = some
      { rb with
        downloaded := rb.downloaded || ra.downloaded,
        filePath := pyOrStr rb.filePath ra.filePath,
        uploaded := rb.uploaded || ra.uploaded,
        processedByTarget := rb.processedByTarget || ra.processedByTarget,
        meetDate := sqlCoalesce (pyOrStr rb.meetDate ra.meetDate) rb.meetDate,
        meetYear := sqlCoalesce (pyOrInt rb.meetYear ra.meetYear) rb.meetYear,
        location := sqlCoalesce (pyOrStr rb.location ra.location) rb.location,
        course := sqlCoalesce (pyOrStr rb.course ra.course) rb.course,
        meetDateStart := sqlCoalesce (pyOrStr rb.meetDateStart ra.meetDateStart)
          rb.meetDateStart,
        meetDateEnd := sqlCoalesce (pyOrStr rb.meetDateEnd ra.meetDateEnd) rb.meetDateEnd,
        parsed := rb.parsed || ra.parsed } ∧
    findMeetRow (merge_meets s a b).1 a = none ∧
    (merge_meets s a b).1.meetTeam =
      s.meetTeam.map (fun e => if e.meetId = a then { e with meetId := b } else e) ∧
    (merge_meets s a b).1.meetSwimmer =
      s.meetSwimmer.map (fun e => if e.meetId = a then { e with meetId := b } else e) ∧
    (merge_meets s a b).1.meetTeamSwimmer =
      s.meetTeamSwimmer.map (fun e => if e.meetId = a then { e with meetId := b } else e) ∧
    (merge_meets s a b).1.parseQueue =
      s.parseQueue.map (fun e => if e.meetId = a then { e with meetId := b } else e) ∧
    (merge_meets s a b).1.errorLog =
      s.errorLog.map (fun e => if e.meetId = some a then { e with meetId := some b } else e) ∧
    (∀ c, c ≠ a → c ≠ b → findMeetRow (merge_meets s a b).1 c = findMeetRow s c) := by
  have hbid : rb.id = b := by simpa using List.find?_some hrb
  have hchar := merge_meets_success s a b ra rb hra hrb hok
  rw [hchar]
  refine ⟨?_, ?_, rfl, rfl, rfl, rfl, rfl, ?_⟩
  · exact find_map_update_filter s.meets a b _ (by rw [show s.meets.find?
      (fun r => r.id = b) = findMeetRow s b from rfl, hrb]; rfl) hbid hab
  · exact find_filter_ne_self _ a
  · intro c hca hcb
    exact find_map_update_filter_other s.meets a b c _ hbid hca hcb

def cexC4Target : MeetRow :=
  { id := 2, region := "r".toList, meetName := "m".toList, url := "u2".toList,
    processedTimestamp := "t".toList, downloaded := false, filePath := none,
    uploaded := false, processedByTarget := false, meetDate := none, meetYear := none,
    location := some [], course := none, meetDateStart := none, meetDateEnd := none,
    parsed := false }

def cexC4Source : MeetRow :=
  { id := 1, region := "r".toList, meetName := "m".toList, url := "u1".toList,
    processedTimestamp := "t".toList, downloaded := false, filePath := none,
    uploaded := false, processedByTarget := false, meetDate := none, meetYear := none,
    location := some "Town".toList, course := none, meetDateStart := none,
    meetDateEnd := none, parsed := false }

def cexC4State : DBState :=
  { meets := [cexC4Source, cexC4Target], teams := [], swimmers := [], meetTeam := [],
    meetSwimmer := [], meetTeamSwimmer := [], parseQueue := [], errorLog := [],
    nextTeamId := 1, nextSwimmerId := 1 }

/-- Counterexample to claim C4 as stated: the target row's `location` is
non-null (the empty string), yet the merge — which completes without error on
this store — replaces it with the source's value, because the code combines
fields with Python truthiness (`target or source`), not with a null check. -/
theorem c4_counterexample :
    (findMeetRow cexC4State 2).map (fun r => r.location) = some (some []) ∧
    (merge_meets cexC4State 1 2).2 = none ∧
    (findMeetRow (merge_meets cexC4State 1 2).1 2).map (fun r => r.location) =
      some (some "Town".toList) ∧
    some ([] : Str) ≠ (none : Option Str) :=
  ⟨by decide, by decide, by decide, by decide⟩

def wC4State : DBState :=
  { meets := [{ wMeetRow 1 with downloaded := true, location := some "Lc".toList },
              { wMeetRow 2 with uploaded := true }],
    teams := [], swimmers := [], meetTeam := [⟨1, 7⟩], meetSwimmer := [],
    meetTeamSwimmer := [], parseQueue := [], errorLog := [],
    nextTeamId := 1, nextSwimmerId := 1 }

def wC4RowA : MeetRow :=
  { wMeetRow 1 with downloaded := true, location := some "Lc".toList }

def wC4RowB : MeetRow :=
  { wMeetRow 2 with uploaded := true }

def wC4Merged : MeetRow :=
  { wMeetRow 2 with uploaded := true, downloaded := true, location := some "Lc".toList }

/-- Witness for C4 (amended) on a concrete store: meet 1 (downloaded, with a
location) merges into meet 2 (uploaded) without error, and the `meet_team` row
repoints. -/
theorem c4_merge_effect_witness :
    findMeetRow (merge_meets wC4State 1 2).1 2 = some wC4Merged ∧
    findMeetRow (merge_meets wC4State 1 2).1 1 = none ∧
    (merge_meets wC4State 1 2).1.meetTeam = [⟨2, 7⟩] := by
  obtain ⟨h1, h2, h3, _⟩ := c4_merge_effect wC4State 1 2 wC4RowA wC4RowB
    (by decide) (by decide) (by decide) (by decide)
  exact ⟨by rw [h1]; decide, h2, by rw [h3]; decide⟩

/-- Claim C2 (amended): on an identity conflict the team upsert does NOT keep
the stored row: it replaces `team_type` with the incoming value, and — because
the incoming parameters are always non-null strings (absent address fields
default to the empty string) — every `COALESCE(excluded.x, teams.x)` resolves
to the incoming value, overwriting populated descriptive fields as well.  No
new row is inserted. -/
theorem c2_team_upsert_overwrites (s : DBState) (mid : Nat) (t : ParsedTeam)
    (hexists : s.teams.any (fun e => e.teamCode == t.teamCode && e.teamName == t.teamName)) :
    (insert_teams s mid [t]).1.teams = s.teams.map (fun e =>
      if e.teamCode = t.teamCode ∧ e.teamName = t.teamName then
        { e with
          teamType := t.teamType,
          regionCode := some t.regionCode,
          region := some t.region,
          address1 := some (t.address1.getD []),
          address2 := some (t.address2.getD []),
          city := some (t.city.getD []),
          postalCode := some (t.postalCode.getD []) }
      else e) ∧
    (insert_teams s mid [t]).1.nextTeamId = s.nextTeamId := by
  have hstep : insert_teams s mid [t] = insertTeamsStep mid (s, []) t := rfl
  rw [hstep]
  simp only [insertTeamsStep]
  rw [if_pos hexists]
  constructor
  · split <;> rfl
  · split <;> rfl

def cexC2Stored : TeamRow :=
  { id := 1, teamCode := "ABC".toList, teamName := "Dolphins".toList,
    teamType := "Club".toList, regionCode := some "OLD".toList,
    region := some "Auckland".toList, address1 := some "A1".toList,
    address2 := none, city := none, postalCode := none }

def cexC2State : DBState :=
  { meets := [], teams := [cexC2Stored], swimmers := [], meetTeam := [],
    meetSwimmer := [], meetTeamSwimmer := [], parseQueue := [], errorLog := [],
    nextTeamId := 2, nextSwimmerId := 1 }

def cexC2Incoming : ParsedTeam :=
  { teamCode := "ABC".toList, teamName := "Dolphins".toList,
    teamType := "High School".toList, regionCode := "NEW".toList,
    region := "Wellington".toList, address1 := none, address2 := none,
    city := none, postalCode := none }

/-- Counterexample to claim C2 as stated: a conflicting upsert replaces the
stored `team_type` (Club becomes High School) and replaces the populated
`region_code` with a different incoming value, instead of keeping the type and
filling only null fields. -/
theorem c2_counterexample :
    ((insert_teams cexC2State 9 [cexC2Incoming]).1.teams.map
      (fun e => (e.teamType, e.regionCode))) =
      [("High School".toList, some "NEW".toList)] ∧
    cexC2Stored.teamType = "Club".toList ∧
    cexC2Stored.regionCode = some "OLD".toList :=
  ⟨by decide, by decide, by decide⟩

/-- Witness for C2 (amended) at the same concrete conflicting upsert. -/
theorem c2_team_upsert_overwrites_witness :
    (insert_teams cexC2State 9 [cexC2Incoming]).1.teams =
      cexC2State.teams.map (fun e =>
        if e.teamCode = cexC2Incoming.teamCode ∧ e.teamName = cexC2Incoming.teamName then
          { e with
            teamType := cexC2Incoming.teamType,
            regionCode := some cexC2Incoming.regionCode,
            region := some cexC2Incoming.region,
            address1 := some (cexC2Incoming.address1.getD []),
            address2 := some (cexC2Incoming.address2.getD []),
            city := some (cexC2Incoming.city.getD []),
            postalCode := some (cexC2Incoming.postalCode.getD []) }
        else e) ∧
    (insert_teams cexC2State 9 [cexC2Incoming]).1.nextTeamId = cexC2State.nextTeamId :=
  c2_team_upsert_overwrites cexC2State 9 cexC2Incoming (by decide)

theorem find_map_update_id (l : List MeetRow) (i : Nat) (f : MeetRow → MeetRow)
    (hf : ∀ x, (f x).id = x.id) (r : MeetRow)
    (h : l.find? (fun x => x.id = i) = some r) :
    (l.map (fun x => if x.id = i then f x else x)).find? (fun x => x.id = i) = some (f r) := by
  induction l with
  | nil => simp [List.find?] at h
  | cons x t ih =>
    simp only [List.map_cons]
    by_cases hx : x.id = i
    · rw [List.find?_cons_of_pos _ (by simpa using hx)] at h
      rw [if_pos hx, List.find?_cons_of_pos _ (by simp [hf, hx])]
      cases h
      rfl
    · rw [List.find?_cons_of_neg _ (by simpa using hx)] at h
      rw [if_neg hx, List.find?_cons_of_neg _ (by simpa using hx)]
      exact ih h

/-- Claim C3 (amended): when no canonical-duplicate merge triggers (neither the
proactive lookup nor a uniqueness violation), the meet update is applied and
returns normally; each incoming non-null decoded field among name, start and
end date, course and location overwrites the stored value and an absent one
keeps the stored value — but `meet_year` is written unconditionally, so an
absent incoming year nulls a populated stored year.  The parsed flag is set. -/
theorem c3_update_meet_authoritative (s : DBState) (now : Str) (mr : MeetRef)
    (md : MeetDict) (r : MeetRow)
    (hr : findMeetRow s mr.id = some r)
    (hpro : umProactiveTarget s mr.id md = none)
    (hconf : umConflict s mr.id md = false) :
    update_meet_from_hy3 s now mr md =
      ({ s with meets := s.meets.map (fun x =>
          if x.id = mr.id then umUpdatedRow md x else x) }, none) ∧
    findMeetRow (update_meet_from_hy3 s now mr md).1 mr.id = some (umUpdatedRow md r) ∧
    (umUpdatedRow md r).parsed = true ∧
    (umUpdatedRow md r).meetYear = md.meetYear ∧
    (∀ v, umNameParam md = some v → (umUpdatedRow md r).meetName = v) ∧
    (umNameParam md = none → (umUpdatedRow md r).meetName = r.meetName) ∧
    (∀ v, umIsoStart md = some v → (umUpdatedRow md r).meetDateStart = some v) ∧
    (umIsoStart md = none → (umUpdatedRow md r).meetDateStart = r.meetDateStart) ∧
    (∀ v, umIsoEnd md = some v → (umUpdatedRow md r).meetDateEnd = some v) ∧
    (umIsoEnd md = none → (umUpdatedRow md r).meetDateEnd = r.meetDateEnd) ∧
    (∀ v, md.course = some v → (umUpdatedRow md r).course = some v) ∧
    (md.course = none → (umUpdatedRow md r).course = r.course) ∧
    (∀ v, md.locationText = some v → (umUpdatedRow md r).location = some v) ∧
    (md.locationText = none → (umUpdatedRow md r).location = r.location) := by
  have hmain : update_meet_from_hy3 s now mr md =
      ({ s with meets := s.meets.map (fun x =>
          if x.id = mr.id then umUpdatedRow md x else x) }, none) := by
    unfold update_meet_from_hy3
    rw [hpro, hconf]
    simp only [Bool.false_eq_true, if_false]
  refine ⟨hmain, ?_, rfl, rfl, ?_, ?_, ?_, ?_, ?_, ?_, ?_, ?_, ?_, ?_⟩
  · rw [hmain]
    exact find_map_update_id s.meets mr.id (umUpdatedRow md) (fun x => rfl) r hr
  · intro v hv
    simp [umUpdatedRow, hv]
  · intro hv
    simp [umUpdatedRow, hv]
  · intro v hv
    simp [umUpdatedRow, hv, sqlCoalesce]
  · intro hv
    simp [umUpdatedRow, hv, sqlCoalesce]
  · intro v hv
    simp [umUpdatedRow, hv, sqlCoalesce]
  · intro hv
    simp [umUpdatedRow, hv, sqlCoalesce]
  · intro v hv
    simp [umUpdatedRow, hv, sqlCoalesce]
  · intro hv
    simp [umUpdatedRow, hv, sqlCoalesce]
  · intro v hv
    simp [umUpdatedRow, hv, sqlCoalesce]
  · intro hv
    simp [umUpdatedRow, hv, sqlCoalesce]

def cexC3Row : MeetRow :=
  { wMeetRow 1 with meetYear := some 2020, location := some "Pool".toList }

def cexC3State : DBState :=
  { meets := [cexC3Row], teams := [], swimmers := [], meetTeam := [],
    meetSwimmer := [], meetTeamSwimmer := [], parseQueue := [], errorLog := [],
    nextTeamId := 1, nextSwimmerId := 1 }

def cexC3Ref : MeetRef :=
  { id := 1, region := "r".toList, meetName := "m".toList, url := "1".toList,
    filePath := none }

def cexC3Md : MeetDict :=
  { meetName := some "X".toList, locationText := none, meetDateStart := some [],
    meetDateEnd := some [], meetYear := none, meetTypeCode := none, meetType := none,
    courseCode := none, course := none }

/-- Counterexample to claim C3 as stated: the stored row has a populated
`meet_year` (2020) and the decoded data carries no year; the non-merge update
succeeds but sets the stored year to null, because the SQL writes
`meet_year = ?` without a COALESCE guard. -/
theorem c3_counterexample :
    (findMeetRow cexC3State 1).map (fun r => r.meetYear) = some (some 2020) ∧
    (update_meet_from_hy3 cexC3State "t".toList cexC3Ref cexC3Md).2 = none ∧
    (findMeetRow (update_meet_from_hy3 cexC3State "t".toList cexC3Ref cexC3Md).1 1).map
      (fun r => (r.meetYear, r.parsed, r.meetName)) =
      some (none, true, "X".toList) :=
  ⟨by decide, by decide, by decide⟩

/-- Witness for C3 (amended) at the same concrete input: the update returns
normally, the year is nulled unconditionally, the incoming name overwrites,
and the absent location keeps the stored value. -/
theorem c3_update_meet_authoritative_witness :
    findMeetRow (update_meet_from_hy3 cexC3State "t".toList cexC3Ref cexC3Md).1 1 =
      some (umUpdatedRow cexC3Md cexC3Row) ∧
    (umUpdatedRow cexC3Md cexC3Row).meetYear = cexC3Md.meetYear ∧
    (umUpdatedRow cexC3Md cexC3Row).meetName = "X".toList ∧
    (umUpdatedRow cexC3Md cexC3Row).location = cexC3Row.location := by
  obtain ⟨h1, h2, h3, h4, h5, h6, h7, rest⟩ :=
    c3_update_meet_authoritative cexC3State "t".toList cexC3Ref cexC3Md cexC3Row
      (by decide) (by decide) (by decide)
  refine ⟨h2, h4, h5 "X".toList (by decide), ?_⟩
  obtain ⟨h8, h9, h10, h11, h12, h13, h14⟩ := rest
  exact h14 (by decide)

theorem modifyLastTeam_region_map (f : ParsedTeam → ParsedTeam)
    (hf : ∀ t, (f t).regionCode = t.regionCode) (l : List ParsedTeam) :
    (modifyLastTeam f l).map (fun t => t.regionCode) = l.map (fun t => t.regionCode) := by
  unfold modifyLastTeam
  cases hl : l.getLast? with
  | none => rfl
  | some t =>
    have hne : l ≠ [] := by
      intro h
      rw [h] at hl
      simp at hl
    have hdt : l.dropLast ++ [l.getLast hne] = l := List.dropLast_append_getLast hne
    have hget : l.getLast hne = t := by
      have := List.getLast?_eq_getLast l hne
      rw [hl] at this
      exact (Option.some.injEq _ _).mp this.symm
    conv_rhs => rw [← hdt]
    rw [List.map_append, List.map_append, hget]
    simp [hf]

theorem step_teams_region_map (M : Hy3Model) (s : PState) (raw : Str) :
    ((parse_hy3_line_step M s raw).teams.map (fun t => t.regionCode) =
      s.teams.map (fun t => t.regionCode)) ∨
    (∃ rc, (parse_hy3_line_step M s raw).teams.map (fun t => t.regionCode) =
      s.teams.map (fun t => t.regionCode) ++ [rc]) := by
  simp only [parse_hy3_line_step]
  split
  · exact Or.inl rfl
  split
  · exact Or.inl rfl
  split
  · exact Or.inl rfl
  split
  · right
    exact ⟨_, List.map_append _ _ _⟩
  split
  · left
    apply modifyLastTeam_region_map
    intro t
    rfl
  split
  · split
    · exact Or.inl rfl
    · exact Or.inl rfl
  · exact Or.inl rfl

theorem runParse_region_map_append (M : Hy3Model) (lines : List Str) (s : PState) :
    ∃ suf, (runParse M s lines).teams.map (fun t => t.regionCode) =
      s.teams.map (fun t => t.regionCode) ++ suf := by
  induction lines generalizing s with
  | nil => exact ⟨[], by simp [runParse]⟩
  | cons l t ih =>
    have hstep : runParse M s (l :: t) = runParse M (parse_hy3_line_step M s l) t := rfl
    rw [hstep]
    obtain ⟨suf, hsuf⟩ := ih (parse_hy3_line_step M s l)
    rcases step_teams_region_map M s l with h | ⟨rc, h⟩
    · exact ⟨suf, by rw [hsuf, h]⟩
    · exact ⟨rc :: suf, by rw [hsuf, h]; simp⟩

theorem step_team_line_school (M : Hy3Model) (s : PState) (raw : Str)
    (h0 : (rstripCRLF raw).isEmpty = false)
    (h1 : ¬ (rstripCRLF raw).take 2 = M.meetInfo.rowIdentifier)
    (h2 : ¬ some ((rstripCRLF raw).take 2) = M.meetInfoExtended.rowIdentifier)
    (h3 : (rstripCRLF raw).take 2 = M.teamInfo.rowIdentifier)
    (hschool : s.meet.meetTypeCode = some "03".toList ∨
      s.meet.meetTypeCode = some "04".toList) :
    ∃ tm, (parse_hy3_line_step M s raw).teams = s.teams ++ [tm] ∧ tm.regionCode = [] := by
  simp only [parse_hy3_line_step]
  rw [if_neg (by simp [h0]), if_neg h1, if_neg h2, if_pos h3]
  refine ⟨_, rfl, ?_⟩
  simp only [if_pos hschool]

/-- Claim C7: when the meet-type code in effect (the one set by the preceding
meet-extended lines) is one of the two school-designated codes 03 or 04, a line
decoded as a team record emits a team whose region code is the empty string,
regardless of the raw bytes at the region-code offsets, and later lines never
change it: in the full decoder output the team appended at that point still
carries an empty region code. -/
theorem c7_school_region_blank (M : Hy3Model) (pre : List Str) (tline : Str)
    (post : List Str)
    (h0 : (rstripCRLF tline).isEmpty = false)
    (h1 : ¬ (rstripCRLF tline).take 2 = M.meetInfo.rowIdentifier)
    (h2 : ¬ some ((rstripCRLF tline).take 2) = M.meetInfoExtended.rowIdentifier)
    (h3 : (rstripCRLF tline).take 2 = M.teamInfo.rowIdentifier)
    (hschool : (runParse M initPState pre).meet.meetTypeCode = some "03".toList ∨
      (runParse M initPState pre).meet.meetTypeCode = some "04".toList) :
    ((parse_hy3_lines M (pre ++ tline :: post)).2.1.map (fun t => t.regionCode))[
      (runParse M initPState pre).teams.length]? = some [] := by
  have hsplit : parse_hy3_lines M (pre ++ tline :: post) =
      (fun st => (st.meet, st.teams, st.swimmers, st.warnings))
        (runParse M (parse_hy3_line_step M (runParse M initPState pre) tline) post) := by
    unfold parse_hy3_lines runParse
    rw [List.foldl_append, List.foldl_cons]
  obtain ⟨tm, htm, hrc⟩ := step_team_line_school M (runParse M initPState pre) tline
    h0 h1 h2 h3 hschool
  obtain ⟨suf, hsuf⟩ := runParse_region_map_append M post
    (parse_hy3_line_step M (runParse M initPState pre) tline)
  rw [hsplit]
  show ((runParse M (parse_hy3_line_step M (runParse M initPState pre) tline)
    post).teams.map (fun t => t.regionCode))[(runParse M initPState pre).teams.length]?
    = some []
  rw [hsuf, htm, List.map_append]
  rw [List.append_assoc, List.getElem?_append, if_neg (by simp)]
  simp [hrc]

/-- Witness for C7: a concrete school meet-extended line (code 03) followed by
a team line whose raw region-code columns hold AKL; the decoded team's region
code is empty. -/
theorem c7_school_region_blank_witness :
    ((parse_hy3_lines sampleHy3Model (["B203S".toList] ++ "C1ABCDESharks    AKL".toList
      :: ["C2Addr1 Addr2 City  1010".toList])).2.1.map (fun t => t.regionCode))[
      (runParse sampleHy3Model initPState ["B203S".toList]).teams.length]? = some [] :=
  c7_school_region_blank sampleHy3Model ["B203S".toList] "C1ABCDESharks    AKL".toList
    ["C2Addr1 Addr2 City  1010".toList] (by decide) (by decide) (by decide) (by decide)
    (by decide)

/-- Claim C8: a line that decodes as a swimmer record while no team has been
decoded yet (no open team context) produces exactly one structural warning
(`SwimmerWithoutTeam`), contributes no swimmer and no other change, and
decoding simply continues with the remaining lines from that state. -/
theorem c8_swimmer_without_team (M : Hy3Model) (s : PState) (raw : Str) (post : List Str)
    (hteams : s.teams = [])
    (h0 : (rstripCRLF raw).isEmpty = false)
    (h1 : ¬ (rstripCRLF raw).take 2 = M.meetInfo.rowIdentifier)
    (h2 : ¬ some ((rstripCRLF raw).take 2) = M.meetInfoExtended.rowIdentifier)
    (h3 : ¬ (rstripCRLF raw).take 2 = M.teamInfo.rowIdentifier)
    (h5 : (rstripCRLF raw).take 2 = M.swimmerInfo.rowIdentifier) :
    parse_hy3_line_step M s raw =
      { s with warnings := s.warnings ++
          [⟨"SwimmerWithoutTeam".toList, "Encountered swimmer before any team".toList,
            [(rstripCRLF raw).take 50]⟩] } ∧
    (parse_hy3_line_step M s raw).swimmers = s.swimmers ∧
    (parse_hy3_line_step M s raw).teams = s.teams ∧
    (parse_hy3_line_step M s raw).warnings.length = s.warnings.length + 1 ∧
    runParse M s (raw :: post) = runParse M (parse_hy3_line_step M s raw) post := by
  have hstep : parse_hy3_line_step M s raw =
      { s with warnings := s.warnings ++
          [⟨"SwimmerWithoutTeam".toList, "Encountered swimmer before any team".toList,
            [(rstripCRLF raw).take 50]⟩] } := by
    simp only [parse_hy3_line_step]
    rw [if_neg (by simp [h0]), if_neg h1, if_neg h2, if_neg h3,
      if_neg (by simp [hteams]), if_pos h5, hteams]
    rfl
  exact ⟨hstep, by rw [hstep], by rw [hstep], by rw [hstep]; simp, rfl⟩

/-- Witness for C8: the concrete swimmer line decodes against the sample model
with no preceding team line; exactly one warning, no swimmer. -/
theorem c8_swimmer_without_team_witness :
    parse_hy3_line_step sampleHy3Model initPState "D1MSmith   Jane    1234506012010".toList =
      { initPState with warnings := initPState.warnings ++
          [⟨"SwimmerWithoutTeam".toList, "Encountered swimmer before any team".toList,
            [(rstripCRLF "D1MSmith   Jane    1234506012010".toList).take 50]⟩] } ∧
    (parse_hy3_line_step sampleHy3Model initPState
      "D1MSmith   Jane    1234506012010".toList).swimmers = initPState.swimmers := by
  obtain ⟨ha, hb, _⟩ := c8_swimmer_without_team sampleHy3Model initPState
    "D1MSmith   Jane    1234506012010".toList [] (by decide) (by decide) (by decide)
    (by decide) (by decide) (by decide)
  exact ⟨ha, hb⟩

/-- Claim C9: a line that decodes as the meet-core record but whose start-date
token fails to parse under the schema's declared date format yields an absent
start date (the decoder stores the empty string for it) and an absent derived
meet year; nothing is raised — the step is total — and decoding continues with
the remaining lines from the updated state. -/
theorem c9_unparseable_date (M : Hy3Model) (s : PState) (raw : Str) (post : List Str)
    (h0 : (rstripCRLF raw).isEmpty = false)
    (h1 : (rstripCRLF raw).take 2 = M.meetInfo.rowIdentifier)
    (hbad : _parse_date_token
      (_slice (rstripCRLF raw) M.meetInfo.meetDateStart.start M.meetInfo.meetDateStart.length)
      (M.meetInfo.dateFormat.getD "MMDDYYYY".toList) = none) :
    (parse_hy3_line_step M s raw).meet.meetDateStart = some [] ∧
    (parse_hy3_line_step M s raw).meet.meetYear = none ∧
    runParse M s (raw :: post) = runParse M (parse_hy3_line_step M s raw) post := by
  have hstep : (parse_hy3_line_step M s raw).meet.meetDateStart = some [] ∧
      (parse_hy3_line_step M s raw).meet.meetYear = none := by
    simp only [parse_hy3_line_step]
    rw [if_neg (by simp [h0]), if_pos h1]
    dsimp only
    rw [hbad]
    exact ⟨rfl, rfl⟩
  exact ⟨hstep.1, hstep.2, rfl⟩

/-- Witness for C9: a concrete meet-core line whose date columns hold 99999999,
which matches no calendar date under MMDDYYYY. -/
theorem c9_unparseable_date_witness :
    (parse_hy3_line_step sampleHy3Model initPState
      "B1SummerPoolly9999999999999999".toList).meet.meetDateStart = some [] ∧
    (parse_hy3_line_step sampleHy3Model initPState
      "B1SummerPoolly9999999999999999".toList).meet.meetYear = none := by
  obtain ⟨ha, hb, _⟩ := c9_unparseable_date sampleHy3Model initPState
    "B1SummerPoolly9999999999999999".toList [] (by decide) (by decide) (by decide)
  exact ⟨ha, hb⟩

/-! ## Queue-pass infrastructure for the ingest worker -/

/-- Folding the worker loop body over a snapshot prefix. -/
def runItems (env : Env) (s : DBState) (l : List QueueRow) : DBState :=
  l.foldl (process_queue_item env) s

/-- The (id, status, message) view of the parse queue. -/
def pqView (s : DBState) : List (Nat × Str × Option Str) :=
  s.parseQueue.map (fun r => (r.id, r.status, r.message))

/-- The status of the queue row with a given id, if any. -/
def statusOf (s : DBState) (qid : Nat) : Option Str :=
  (s.parseQueue.find? (fun r => r.id = qid)).map (fun r => r.status)

/-- Error-log entries with no meet reference survive a storage operation. -/
def errKeep (s s2 : DBState) : Prop :=
  ∀ e, e ∈ s.errorLog → e.meetId = none → e ∈ s2.errorLog

/-- What the resolver preserves about the parse queue and the error log. -/
def pres (s s2 : DBState) : Prop :=
  pqView s2 = pqView s ∧ errKeep s s2

theorem errKeep_refl (s : DBState) : errKeep s s := fun _ he _ => he

theorem pres_refl (s : DBState) : pres s s := ⟨rfl, errKeep_refl s⟩

theorem pres_trans {s1 s2 s3 : DBState} (h1 : pres s1 s2) (h2 : pres s2 s3) :
    pres s1 s3 :=
  ⟨h2.1.trans h1.1, fun e he hn => h2.2 e (h1.2 e he hn) hn⟩

theorem pres_of_parts {s s2 : DBState} (hp : s2.parseQueue = s.parseQueue)
    (he : ∃ t, s2.errorLog = s.errorLog ++ t) : pres s s2 := by
  obtain ⟨t, ht⟩ := he
  refine ⟨?_, ?_⟩
  · unfold pqView
    rw [hp]
  · intro e hme _
    rw [ht]
    exact List.mem_append_left t hme

theorem statusOf_view_aux (l : List QueueRow) (qid : Nat) :
    (l.find? (fun r => r.id = qid)).map (fun r => r.status) =
      ((l.map (fun r => (r.id, r.status, r.message))).find?
        (fun p => p.1 = qid)).map (fun p => p.2.1) := by
  induction l with
  | nil => rfl
  | cons r t ih =>
    by_cases hr : r.id = qid
    · rw [List.find?_cons_of_pos _ (by simpa using hr), List.map_cons,
        List.find?_cons_of_pos _ (by simpa using hr)]
      rfl
    · rw [List.find?_cons_of_neg _ (by simpa using hr), List.map_cons,
        List.find?_cons_of_neg _ (by simpa using hr)]
      exact ih

theorem statusOf_eq_view (s : DBState) (qid : Nat) :
    statusOf s qid = ((pqView s).find? (fun p => p.1 = qid)).map (fun p => p.2.1) :=
  statusOf_view_aux s.parseQueue qid

theorem statusOf_congr {s s2 : DBState} (h : pqView s2 = pqView s) (qid : Nat) :
    statusOf s2 qid = statusOf s qid := by
  rw [statusOf_eq_view, statusOf_eq_view, h]

theorem pres_log_error (s : DBState) (now : Str) (fp : Option Str) (et m : Str)
    (c : Option Str) (mi : Option Nat) (rg : Option Str) :
    pres s (log_error s now fp et m c mi rg) :=
  pres_of_parts rfl ⟨[_], rfl⟩

theorem pres_mark_parsed (s : DBState) (mid : Nat) : pres s (mark_parsed s mid) :=
  pres_of_parts rfl ⟨[], by simp [mark_parsed]⟩

theorem pres_merge_meets (s : DBState) (a b : Nat) : pres s (merge_meets s a b).1 := by
  unfold merge_meets
  cases findMeetRow s b with
  | none => exact pres_refl s
  | some t =>
    cases findMeetRow s a with
    | none => exact pres_refl s
    | some src =>
      dsimp only
      split
      · exact pres_refl s
      · split
        · exact pres_of_parts rfl ⟨[], by simp [mergeS1]⟩
        · split
          · exact pres_of_parts rfl ⟨[], by simp [mergeS2, mergeS1]⟩
          · split
            · exact pres_of_parts rfl ⟨[], by simp [mergeS3, mergeS2, mergeS1]⟩
            · constructor
              · dsimp only [pqView, mergeFinal, mergeS4, mergeS3, mergeS2, mergeS1]
                rw [List.map_map]
                apply List.map_congr_left
                intro r _
                by_cases hr : r.meetId = a
                · simp [Function.comp, hr]
                · simp [Function.comp, hr]
              · intro e he hn
                dsimp only [mergeFinal, mergeS4, mergeS3, mergeS2, mergeS1]
                have heq : (if e.meetId = some a then { e with meetId := some b } else e)
                    = e := by
                  rw [if_neg (by rw [hn]; exact fun h => Option.noConfusion h)]
                rw [← heq]
                exact List.mem_map_of_mem _ he

theorem foldl_pres {α : Type} (g : DBState → α → DBState)
    (hg : ∀ s x, (g s x).parseQueue = s.parseQueue ∧
      ∃ t, (g s x).errorLog = s.errorLog ++ t)
    (l : List α) (s : DBState) :
    (l.foldl g s).parseQueue = s.parseQueue ∧
      ∃ t, (l.foldl g s).errorLog = s.errorLog ++ t := by
  induction l generalizing s with
  | nil => exact ⟨rfl, [], by simp⟩
  | cons x xs ih =>
    rw [List.foldl_cons]
    obtain ⟨hp, t1, he⟩ := hg s x
    obtain ⟨hp2, t2, he2⟩ := ih (g s x)
    exact ⟨hp2.trans hp, t1 ++ t2, by rw [he2, he, List.append_assoc]⟩

theorem foldl_pres2 {α β : Type} (g : DBState × β → α → DBState × β)
    (hg : ∀ acc x, (g acc x).1.parseQueue = acc.1.parseQueue ∧
      (g acc x).1.errorLog = acc.1.errorLog)
    (l : List α) (acc : DBState × β) :
    (l.foldl g acc).1.parseQueue = acc.1.parseQueue ∧
      (l.foldl g acc).1.errorLog = acc.1.errorLog := by
  induction l generalizing acc with
  | nil => exact ⟨rfl, rfl⟩
  | cons x xs ih =>
    rw [List.foldl_cons]
    obtain ⟨hp, he⟩ := hg acc x
    obtain ⟨hp2, he2⟩ := ih (g acc x)
    exact ⟨hp2.trans hp, he2.trans he⟩

theorem insert_teams_pres (s : DBState) (mid : Nat) (ts : List ParsedTeam) :
    pres s (insert_teams s mid ts).1 := by
  have h := foldl_pres2 (insertTeamsStep mid)
    (fun acc t => by simp only [insertTeamsStep]; split <;> split <;> exact ⟨rfl, rfl⟩)
    ts (s, [])
  refine pres_of_parts h.1 ⟨[], ?_⟩
  rw [List.append_nil]
  exact h.2

theorem insert_swimmers_pres (s : DBState) (mid : Nat) (sws : List ParsedSwimmer)
    (tm : List (Str × Nat)) : pres s (insert_swimmers s mid sws tm).1 := by
  have h := foldl_pres2 (insertSwimmersStep tm)
    (fun acc t => by simp only [insertSwimmersStep]; split <;> split <;> exact ⟨rfl, rfl⟩)
    sws (s, [])
  refine pres_of_parts h.1 ⟨[], ?_⟩
  rw [List.append_nil]
  exact h.2

theorem link_meet_teams_pres (s : DBState) (now : Str) (mid : Nat)
    (ids : List (Option Nat)) : pres s (link_meet_teams s now mid ids) := by
  unfold link_meet_teams
  split
  · exact pres_log_error _ _ _ _ _ _ _ _
  · have h := foldl_pres (fun acc tid =>
      match tid with
      | none => log_error acc now none "LinkWarning".toList
          ("Skipping None team_id for meet_id=".toList ++ natToStr mid)
          (some "meet_id".toList) none none
      | some t =>
          if acc.meetTeam.any (fun e => e.meetId == mid && e.teamId == t) then acc
          else { acc with meetTeam := acc.meetTeam ++ [⟨mid, t⟩] })
      (fun s2 tid => by
        cases tid with
        | none => exact ⟨rfl, [_], rfl⟩
        | some t =>
          dsimp only
          split
          · exact ⟨rfl, [], by simp⟩
          · exact ⟨rfl, [], by simp⟩) ids s
    exact pres_of_parts h.1 h.2

theorem link_meet_swimmers_pres (s : DBState) (now : Str) (mid : Nat)
    (ids : List (Option Nat)) : pres s (link_meet_swimmers s now mid ids) := by
  unfold link_meet_swimmers
  split
  · exact pres_log_error _ _ _ _ _ _ _ _
  · have h := foldl_pres (fun acc sid =>
      match sid with
      | none => log_error acc now none "LinkWarning".toList
          ("Skipping None swimmer_id for meet_id=".toList ++ natToStr mid)
          (some "meet_id".toList) none none
      | some w =>
          if acc.meetSwimmer.any (fun e => e.meetId == mid && e.swimmerId == w) then acc
          else { acc with meetSwimmer := acc.meetSwimmer ++ [⟨mid, w⟩] })
      (fun s2 sid => by
        cases sid with
        | none => exact ⟨rfl, [_], rfl⟩
        | some w =>
          dsimp only
          split
          · exact ⟨rfl, [], by simp⟩
          · exact ⟨rfl, [], by simp⟩) ids s
    exact pres_of_parts h.1 h.2

theorem link_meet_teams_swimmers_pres (s : DBState) (now : Str) (mid : Nat)
    (ids : List Nat) : pres s (link_meet_teams_swimmers s now mid ids) := by
  unfold link_meet_teams_swimmers
  split
  · exact pres_log_error _ _ _ _ _ _ _ _
  · have h := foldl_pres (fun acc sid =>
      match (acc.swimmers.find? (fun e => e.id = sid)).bind (fun e => e.teamId) with
      | none => log_error acc now none "LinkWarning".toList
          ("Swimmer ".toList ++ natToStr sid
            ++ " has no team_id; cannot link meet_team_swimmer".toList)
          (some "meet_id swimmer_id".toList) none none
      | some t =>
          if acc.meetTeamSwimmer.any (fun e =>
              e.meetId == mid && e.teamId == t && e.swimmerId == sid) then acc
          else { acc with meetTeamSwimmer := acc.meetTeamSwimmer ++ [⟨mid, t, sid⟩] })
      (fun s2 sid => by
        dsimp only
        cases hx : (s2.swimmers.find? (fun e => e.id = sid)).bind (fun e => e.teamId) with
        | none => exact ⟨rfl, [_], rfl⟩
        | some t =>
          dsimp only
          split
          · exact ⟨rfl, [], by simp⟩
          · exact ⟨rfl, [], by simp⟩) ids s
    exact pres_of_parts h.1 h.2

theorem update_meet_pres (s : DBState) (now : Str) (mr : MeetRef) (md : MeetDict) :
    pres s (update_meet_from_hy3 s now mr md).1 := by
  unfold update_meet_from_hy3
  cases umProactiveTarget s mr.id md with
  | some oid =>
    exact pres_trans (pres_log_error _ _ _ _ _ _ _ _) (pres_merge_meets _ mr.id oid)
  | none =>
    dsimp only
    split
    · split
      · split
        · split
          · exact pres_trans (pres_log_error _ _ _ _ _ _ _ _) (pres_merge_meets _ _ _)
          · exact pres_refl s
        · exact pres_refl s
      · exact pres_refl s
    · exact pres_of_parts rfl ⟨[], by simp⟩

theorem ingest_zip_pres (env : Env) (s : DBState) (p : Str) (mrow : Option MeetRef) :
    pres s (ingest_zip env s p mrow).1 := by
  unfold ingest_zip
  cases mrow with
  | none => exact pres_log_error _ _ _ _ _ _ _ _
  | some mr =>
    cases parse_hy3_zip env.model env.fs p with
    | error e => exact pres_refl s
    | ok out =>
      obtain ⟨meetOpt, teams, swimmers, warnings⟩ := out
      dsimp only
      split
      · have h := foldl_pres
          (fun acc w => log_error acc env.now (some p) w.wtype w.message
            (some "warning".toList) none none)
          (fun s2 w => ⟨rfl, [_], rfl⟩) warnings s
        exact pres_of_parts h.1 h.2
      · have hupd := update_meet_pres s env.now mr (meetOpt.getD emptyMeetDict)
        cases hu : update_meet_from_hy3 s env.now mr (meetOpt.getD emptyMeetDict) with
        | mk s1 err =>
          rw [hu] at hupd
          cases err with
          | some e => exact hupd
          | none =>
            dsimp only at hupd ⊢
            have hins := insert_teams_pres s1 mr.id teams
            cases hit : insert_teams s1 mr.id teams with
            | mk s2 teamIdMap =>
              rw [hit] at hins
              dsimp only at hins ⊢
              have hlnk := link_meet_teams_pres s2 env.now mr.id
                ((teamIdMap.map (fun q => q.2)).map some)
              have hins2 := insert_swimmers_pres (link_meet_teams s2 env.now mr.id
                ((teamIdMap.map (fun q => q.2)).map some)) mr.id swimmers teamIdMap
              cases his : insert_swimmers (link_meet_teams s2 env.now mr.id
                  ((teamIdMap.map (fun q => q.2)).map some)) mr.id swimmers teamIdMap with
              | mk s4 swimmerIds =>
                rw [his] at hins2
                dsimp only at hins2 ⊢
                have hlnk2 := link_meet_swimmers_pres s4 env.now mr.id (swimmerIds.map some)
                have hlnk3 := link_meet_teams_swimmers_pres
                  (link_meet_swimmers s4 env.now mr.id (swimmerIds.map some)) env.now mr.id
                  swimmerIds
                have hwarn := foldl_pres
                  (fun acc w => log_error acc env.now (some p) w.wtype w.message
                    (some "warning".toList) (some mr.id) none)
                  (fun s2 w => ⟨rfl, [_], rfl⟩) warnings
                  (link_meet_teams_swimmers (link_meet_swimmers s4 env.now mr.id
                    (swimmerIds.map some)) env.now mr.id swimmerIds)
                refine pres_trans hupd (pres_trans hins (pres_trans hlnk
                  (pres_trans hins2 (pres_trans hlnk2 (pres_trans hlnk3
                    (pres_trans (pres_of_parts hwarn.1 hwarn.2)
                      (pres_mark_parsed _ mr.id)))))))

/-- The row transformation applied by `update_parse_queue_status`. -/
def updQRow (now st : Str) (m : Option Str) (r : QueueRow) : QueueRow :=
  { r with status := st, message := m, updatedAt := now }

theorem find_update_qrow_self (l : List QueueRow) (now : Str) (qid : Nat) (st : Str)
    (m : Option Str) (h : (l.find? (fun r => r.id = qid)).isSome) :
    ((l.map (fun r => if r.id = qid then updQRow now st m r else r)).find?
      (fun r => r.id = qid)).map (fun r => r.status) = some st := by
  induction l with
  | nil => simp [List.find?] at h
  | cons r t ih =>
    by_cases hr : r.id = qid
    · rw [List.map_cons, if_pos hr, List.find?_cons_of_pos _ (by simpa [updQRow] using hr)]
      rfl
    · rw [List.find?_cons_of_neg _ (by simpa using hr)] at h
      rw [List.map_cons, if_neg hr, List.find?_cons_of_neg _ (by simpa using hr)]
      exact ih h

theorem find_update_qrow_other (l : List QueueRow) (now : Str) (i : Nat) (st : Str)
    (m : Option Str) (qid : Nat) (hne : i ≠ qid) :
    ((l.map (fun r => if r.id = i then updQRow now st m r else r)).find?
      (fun r => r.id = qid)).map (fun r => r.status) =
      (l.find? (fun r => r.id = qid)).map (fun r => r.status) := by
  induction l with
  | nil => rfl
  | cons r t ih =>
    by_cases hr : r.id = qid
    · have hri : ¬ r.id = i := by rw [hr]; exact fun hh => hne hh.symm
      rw [List.map_cons, if_neg hri, List.find?_cons_of_pos _ (by simpa using hr),
        List.find?_cons_of_pos _ (by simpa using hr)]
    · have hid : (if r.id = i then updQRow now st m r else r).id = r.id := by
        by_cases hri : r.id = i
        · rw [if_pos hri]; rfl
        · rw [if_neg hri]
      rw [List.map_cons, List.find?_cons_of_neg _ (by simp [hid]; exact hr),
        List.find?_cons_of_neg _ (by simpa using hr)]
      exact ih

theorem statusOf_update_self (s : DBState) (now : Str) (qid : Nat) (st : Str)
    (m : Option Str) (h : (statusOf s qid).isSome) :
    statusOf (update_parse_queue_status s now qid st m) qid = some st :=
  find_update_qrow_self s.parseQueue now qid st m (by
    have hh : (statusOf s qid).isSome =
        (s.parseQueue.find? (fun r => r.id = qid)).isSome := by
      unfold statusOf
      cases s.parseQueue.find? (fun r => r.id = qid) <;> rfl
    rw [← hh]
    exact h)

theorem statusOf_update_other (s : DBState) (now : Str) (i : Nat) (st : Str)
    (m : Option Str) (qid : Nat) (hne : i ≠ qid) :
    statusOf (update_parse_queue_status s now i st m) qid = statusOf s qid :=
  find_update_qrow_other s.parseQueue now i st m qid hne

theorem statusOf_log_error (s : DBState) (now : Str) (fp : Option Str) (et msg : Str)
    (c : Option Str) (mi : Option Nat) (rg : Option Str) (qid : Nat) :
    statusOf (log_error s now fp et msg c mi rg) qid = statusOf s qid := rfl

theorem statusOf_process_other (env : Env) (s : DBState) (it : QueueRow) (qid : Nat)
    (hne : it.id ≠ qid) :
    statusOf (process_queue_item env s it) qid = statusOf s qid := by
  simp only [process_queue_item]
  have h1 := statusOf_update_other s env.now it.id "processing".toList none qid hne
  have h2 := (ingest_zip_pres env
    (update_parse_queue_status s env.now it.id "processing".toList none) it.filePath
    (get_meet_by_id (update_parse_queue_status s env.now it.id "processing".toList none)
      it.meetId)).1
  cases hz : ingest_zip env
      (update_parse_queue_status s env.now it.id "processing".toList none) it.filePath
      (get_meet_by_id (update_parse_queue_status s env.now it.id "processing".toList none)
        it.meetId) with
  | mk s2 err =>
    rw [hz] at h2
    cases err with
    | none =>
      dsimp only
      rw [statusOf_update_other s2 env.now it.id "done".toList none qid hne,
        statusOf_congr h2 qid, h1]
    | some e =>
      dsimp only
      rw [statusOf_log_error,
        statusOf_update_other s2 env.now it.id "error".toList (some (errStr e)) qid hne,
        statusOf_congr h2 qid, h1]

theorem statusOf_runItems_other (env : Env) (l : List QueueRow) (s : DBState) (qid : Nat)
    (h : ∀ it ∈ l, it.id ≠ qid) :
    statusOf (runItems env s l) qid = statusOf s qid := by
  induction l generalizing s with
  | nil => rfl
  | cons it t ih =>
    have hstep : runItems env s (it :: t) = runItems env (process_queue_item env s it) t := rfl
    rw [hstep, ih (process_queue_item env s it) (fun x hx => h x (List.mem_cons_of_mem it hx)),
      statusOf_process_other env s it qid (h it (List.mem_cons_self it t))]

theorem isSome_statusOf_process (env : Env) (s : DBState) (it : QueueRow) (qid : Nat)
    (h : (statusOf s qid).isSome) :
    (statusOf (process_queue_item env s it) qid).isSome := by
  by_cases hne : it.id = qid
  · subst hne
    simp only [process_queue_item]
    have h1 : (statusOf (update_parse_queue_status s env.now it.id "processing".toList
        none) it.id).isSome := by
      rw [statusOf_update_self s env.now it.id "processing".toList none h]
      rfl
    have h2 := (ingest_zip_pres env
      (update_parse_queue_status s env.now it.id "processing".toList none) it.filePath
      (get_meet_by_id (update_parse_queue_status s env.now it.id "processing".toList none)
        it.meetId)).1
    cases hz : ingest_zip env
        (update_parse_queue_status s env.now it.id "processing".toList none) it.filePath
        (get_meet_by_id (update_parse_queue_status s env.now it.id "processing".toList
          none) it.meetId) with
    | mk s2 err =>
      rw [hz] at h2
      have h3 : (statusOf s2 it.id).isSome := by
        rw [statusOf_congr h2 it.id]
        exact h1
      cases err with
      | none =>
        dsimp only
        rw [statusOf_update_self s2 env.now it.id "done".toList none h3]
        rfl
      | some e =>
        dsimp only
        rw [statusOf_log_error,
          statusOf_update_self s2 env.now it.id "error".toList (some (errStr e)) h3]
        rfl
  · rw [statusOf_process_other env s it qid hne]
    exact h

theorem isSome_statusOf_runItems (env : Env) (l : List QueueRow) (s : DBState) (qid : Nat)
    (h : (statusOf s qid).isSome) :
    (statusOf (runItems env s l) qid).isSome := by
  induction l generalizing s with
  | nil => exact h
  | cons it t ih =>
    exact ih (process_queue_item env s it) (isSome_statusOf_process env s it qid h)

theorem errKeep_process (env : Env) (s : DBState) (it : QueueRow) :
    errKeep s (process_queue_item env s it) := by
  simp only [process_queue_item]
  have h2 := (ingest_zip_pres env
    (update_parse_queue_status s env.now it.id "processing".toList none) it.filePath
    (get_meet_by_id (update_parse_queue_status s env.now it.id "processing".toList none)
      it.meetId)).2
  cases hz : ingest_zip env
      (update_parse_queue_status s env.now it.id "processing".toList none) it.filePath
      (get_meet_by_id (update_parse_queue_status s env.now it.id "processing".toList none)
        it.meetId) with
  | mk s2 err =>
    rw [hz] at h2
    cases err with
    | none =>
      dsimp only
      intro e he hn
      exact h2 e he hn
    | some ex =>
      dsimp only
      intro e he hn
      exact List.mem_append_left _ (h2 e he hn)

theorem errKeep_runItems (env : Env) (l : List QueueRow) (s : DBState) :
    errKeep s (runItems env s l) := by
  induction l generalizing s with
  | nil => exact errKeep_refl s
  | cons it t ih =>
    intro e he hn
    exact ih (process_queue_item env s it) e (errKeep_process env s it e he hn) hn

def cexC1Item : QueueRow :=
  { id := 1, meetId := 5, filePath := "a.zip".toList, status := "queued".toList,
    message := none, createdAt := "t0".toList, updatedAt := "t0".toList }

def cexC1State : DBState :=
  { meets := [], teams := [], swimmers := [], meetTeam := [], meetSwimmer := [],
    meetTeamSwimmer := [], parseQueue := [cexC1Item], errorLog := [],
    nextTeamId := 1, nextSwimmerId := 1 }

def cexC1Env : Env :=
  { model := sampleHy3Model, fs := fun _ => ZipInput.missing, now := "t1".toList }

/-- Counterexample to claim C1 as stated: a queued item whose meet id resolves
to no stored meet is logged as an ingest error but then marked `done`, not
`error` — `ingest_zip` returns normally after logging, so the worker's success
path runs. -/
theorem c1_counterexample :
    statusOf (ingest_queue cexC1Env cexC1State) 1 = some "done".toList ∧
    ((ingest_queue cexC1Env cexC1State).errorLog.map (fun e => e.errorType)) =
      ["IngestError".toList] ∧
    some "done".toList ≠ some "error".toList :=
  ⟨by decide, by decide, by decide⟩

/-- Claim C1 (amended): for every parse-queue item in the pass snapshot whose
meet reference does not resolve to a stored meet row at its turn, the worker
logs an `IngestError` (which survives to the end of the pass) and the item's
final status at the end of the pass is `done` — the missing meet is not
treated as an item failure, and the item is not auto-retried. -/
theorem c1_missing_meet_marks_done (env : Env) (s : DBState) (k : Nat) (item : QueueRow)
    (hids : (s.parseQueue.map (fun r => r.id)).Nodup)
    (hitem : (get_parse_queue s)[k]? = some item)
    (hnomeet : findMeetRow (runItems env s ((get_parse_queue s).take k)) item.meetId
      = none) :
    statusOf (ingest_queue env s) item.id = some "done".toList ∧
    ∃ e ∈ (ingest_queue env s).errorLog,
      e.errorType = "IngestError".toList ∧
      e.message = "Meet row not found for queued item".toList ∧
      e.filePath = some item.filePath := by
  obtain ⟨hklt, hkeq⟩ := List.getElem?_eq_some.mp hitem
  have hdrop : (get_parse_queue s).drop k = item :: (get_parse_queue s).drop (k + 1) := by
    rw [List.drop_eq_getElem_cons hklt, hkeq]
  have hdecomp : get_parse_queue s =
      (get_parse_queue s).take k ++ item :: (get_parse_queue s).drop (k + 1) := by
    conv_lhs => rw [← List.take_append_drop k (get_parse_queue s)]
    rw [hdrop]
  have hrun : ingest_queue env s =
      runItems env (process_queue_item env (runItems env s ((get_parse_queue s).take k))
        item) ((get_parse_queue s).drop (k + 1)) := by
    show runItems env s (get_parse_queue s) = _
    conv_lhs => rw [hdecomp]
    unfold runItems
    rw [List.foldl_append, List.foldl_cons]
  have hmem_items : item ∈ get_parse_queue s := by
    rw [← hkeq]
    exact List.getElem_mem hklt
  have hmem_pq : item ∈ s.parseQueue := by
    unfold get_parse_queue at hmem_items
    exact List.mem_of_mem_filter
      (((List.perm_insertionSort (fun (a b : QueueRow) => a.id ≤ b.id) _).mem_iff).mp hmem_items)
  have hsome_s : (statusOf s item.id).isSome := by
    have hfind : (s.parseQueue.find? (fun r => r.id = item.id)).isSome :=
      List.find?_isSome.mpr ⟨item, hmem_pq, by simp⟩
    unfold statusOf
    cases hfq : s.parseQueue.find? (fun r => r.id = item.id) with
    | none => rw [hfq] at hfind; simp at hfind
    | some r => rfl
  have hsomeB : (statusOf (runItems env s ((get_parse_queue s).take k)) item.id).isSome :=
    isSome_statusOf_runItems env _ s item.id hsome_s
  have hgm : get_meet_by_id (update_parse_queue_status
      (runItems env s ((get_parse_queue s).take k)) env.now item.id "processing".toList
      none) item.meetId = none := by
    unfold get_meet_by_id
    rw [show findMeetRow (update_parse_queue_status
      (runItems env s ((get_parse_queue s).take k)) env.now item.id "processing".toList
      none) item.meetId = findMeetRow (runItems env s ((get_parse_queue s).take k))
      item.meetId from rfl, hnomeet]
    rfl
  have hpi : process_queue_item env (runItems env s ((get_parse_queue s).take k)) item =
      update_parse_queue_status
        (log_error (update_parse_queue_status
            (runItems env s ((get_parse_queue s).take k)) env.now item.id
            "processing".toList none)
          env.now (some item.filePath) "IngestError".toList
          "Meet row not found for queued item".toList (some item.filePath) none none)
        env.now item.id "done".toList none := by
    simp only [process_queue_item]
    rw [hgm]
    rfl
  have hsome1 : (statusOf (log_error (update_parse_queue_status
      (runItems env s ((get_parse_queue s).take k)) env.now item.id "processing".toList
      none) env.now (some item.filePath) "IngestError".toList
      "Meet row not found for queued item".toList (some item.filePath) none none)
      item.id).isSome := by
    rw [statusOf_log_error,
      statusOf_update_self _ env.now item.id "processing".toList none hsomeB]
    rfl
  have hdone : statusOf (process_queue_item env
      (runItems env s ((get_parse_queue s).take k)) item) item.id = some "done".toList := by
    rw [hpi]
    exact statusOf_update_self _ env.now item.id "done".toList none hsome1
  have he0 : (⟨env.now, some item.filePath, none, none, "IngestError".toList,
      "Meet row not found for queued item".toList, some item.filePath⟩ : ErrRow) ∈
      (process_queue_item env (runItems env s ((get_parse_queue s).take k))
        item).errorLog := by
    rw [hpi]
    exact List.mem_append_right _ (List.mem_singleton.mpr rfl)
  have hqids : ((get_parse_queue s).map (fun r => r.id)).Nodup := by
    have hfil : List.Sublist ((s.parseQueue.filter (fun r =>
        r.status == "queued".toList || r.status == "retry".toList)).map (fun r => r.id))
        (s.parseQueue.map (fun r => r.id)) :=
      (List.filter_sublist s.parseQueue).map (fun r => r.id)
    have hfn : ((s.parseQueue.filter (fun r =>
        r.status == "queued".toList || r.status == "retry".toList)).map
        (fun r => r.id)).Nodup := hids.sublist hfil
    exact (((List.perm_insertionSort (fun (a b : QueueRow) => a.id ≤ b.id) _).map
      (fun r => r.id)).symm.nodup) hfn
  have hrest_ids : ∀ it ∈ (get_parse_queue s).drop (k + 1), it.id ≠ item.id := by
    rw [hdecomp] at hqids
    rw [List.map_append, List.map_cons] at hqids
    have hnc : item.id ∉ ((get_parse_queue s).drop (k + 1)).map (fun r => r.id) :=
      (List.nodup_cons.mp (List.nodup_append.mp hqids).2.1).1
    intro it hit heq
    exact hnc (heq ▸ List.mem_map_of_mem (fun r => r.id) hit)
  refine ⟨?_, ?_⟩
  · rw [hrun, statusOf_runItems_other env _ _ item.id hrest_ids]
    exact hdone
  · refine ⟨⟨env.now, some item.filePath, none, none, "IngestError".toList,
      "Meet row not found for queued item".toList, some item.filePath⟩, ?_, rfl, rfl, rfl⟩
    rw [hrun]
    exact errKeep_runItems env _ _ _ he0 rfl

/-- Witness for C1 (amended) at the concrete store with one queued item whose
meet id 5 matches no stored meet. -/
theorem c1_missing_meet_marks_done_witness :
    statusOf (ingest_queue cexC1Env cexC1State) cexC1Item.id = some "done".toList ∧
    ∃ e ∈ (ingest_queue cexC1Env cexC1State).errorLog,
      e.errorType = "IngestError".toList ∧
      e.message = "Meet row not found for queued item".toList ∧
      e.filePath = some cexC1Item.filePath :=
  c1_missing_meet_marks_done cexC1Env cexC1State 0 cexC1Item (by decide) (by decide)
    (by decide)

end TM
